import Mathlib

/-!
Shallow embedding of the chip8-rust emulator core (src/memory.rs and
src/interpreter.rs) and verification of the frozen claims about it.

Machine bytes and 16-bit registers are modelled as `Nat` with explicit
masking (`% 256`, `&&& 0xff`, ...) exactly where the Rust code masks or
where the Rust integer type forces a wrap.  Memory is a total function
`Nat → Nat` over byte addresses; the Rust slice-bounds panics and
`io::Error` results are both modelled as `Option.none`.  The Display,
Input and Sound collaborators are external (spec §6): `display.draw` is
modelled as a bounds-checked read of the framebuffer that always
succeeds, and the non-blocking key source as having no key available
("nothing available" is a legal behaviour of the interface).
-/

namespace Chip8

/-- src/memory.rs: `const CHIP8_RAM_SIZE_BYTES: u16 = 4096` -/
def CHIP8_RAM_SIZE_BYTES : Nat := 4096

/-- src/memory.rs: `const CHIP8_STACK_OFFSET: u16 = 0x0132` -/
def CHIP8_STACK_OFFSET : Nat := 0x132

/-- src/memory.rs: `const CHIP8_WORK_OFFSET: u16 = 0x0130` -/
def CHIP8_WORK_OFFSET : Nat := 0x130

/-- src/memory.rs: `const CHIP8_VAR_OFFSET: u16 = 0x0110` -/
def CHIP8_VAR_OFFSET : Nat := 0x110

/-- src/memory.rs: `const CHIP8_DISPLAY_OFFSET: u16 = 0x100` -/
def CHIP8_DISPLAY_OFFSET : Nat := 0x100

/-- src/memory.rs: `const CHIP8_PROGRAM_ADDR: u16 = 0x0200` -/
def CHIP8_PROGRAM_ADDR : Nat := 0x200

/-- `Chip8MemoryMap::new`: `stack_addr: CHIP8_RAM_SIZE_BYTES - CHIP8_STACK_OFFSET` -/
def stack_addr : Nat := CHIP8_RAM_SIZE_BYTES - CHIP8_STACK_OFFSET

/-- `Chip8MemoryMap::new`: `work_addr: CHIP8_RAM_SIZE_BYTES - CHIP8_WORK_OFFSET` -/
def work_addr : Nat := CHIP8_RAM_SIZE_BYTES - CHIP8_WORK_OFFSET

/-- `Chip8MemoryMap::new`: `var_addr: CHIP8_RAM_SIZE_BYTES - CHIP8_VAR_OFFSET` -/
def var_addr : Nat := CHIP8_RAM_SIZE_BYTES - CHIP8_VAR_OFFSET

/-- `Chip8MemoryMap::new`: `display_addr: CHIP8_RAM_SIZE_BYTES - CHIP8_DISPLAY_OFFSET` -/
def display_addr : Nat := CHIP8_RAM_SIZE_BYTES - CHIP8_DISPLAY_OFFSET

theorem stack_addr_eq : stack_addr = 0xece := rfl

theorem work_addr_eq : work_addr = 0xed0 := rfl

theorem var_addr_eq : var_addr = 0xef0 := rfl

theorem display_addr_eq : display_addr = 0xf00 := rfl

/-- Contiguous byte copy into a memory function: `data` is laid down starting
at `addr`, everything else is untouched.  This is the effect of
`d.read(bytes)` in `MemoryMap::write` once the destination slice has been
taken (`Read` for a byte slice fills the destination from the front). -/
def writeBytes (m : Nat → Nat) (data : List Nat) (addr : Nat) : Nat → Nat :=
  fun a => if addr ≤ a ∧ a < addr + data.length then data.getD (a - addr) 0 else m a

/-- src/memory.rs `MemoryMap::write(data, addr, len)`: takes the r/w slice
`bytes[addr..addr+len]` (a Rust panic — modelled as `none` — when
`addr + len` exceeds the RAM size) and copies `min len data.length` bytes
of `data` into it (`Read` for `&[u8]` copies the minimum of the two
lengths and never fails). -/
def write (m : Nat → Nat) (data : List Nat) (addr len : Nat) : Option (Nat → Nat) :=
  if addr + len ≤ CHIP8_RAM_SIZE_BYTES then
    some (writeBytes m (data.take len) addr)
  else none

/-- src/memory.rs `get_ro_slice(addr, len)`: bounds-checked read-only view,
returned as the list of bytes; the Rust slice indexing panic is `none`. -/
def get_ro_slice (m : Nat → Nat) (addr len : Nat) : Option (List Nat) :=
  if addr + len ≤ CHIP8_RAM_SIZE_BYTES then
    some ((List.range len).map fun k => m (addr + k))
  else none

/-- `get_ro_slice(addr, 1)[0]`: single-byte read used all over the opcode
handlers. -/
def get_ro_byte (m : Nat → Nat) (addr : Nat) : Option Nat :=
  if addr + 1 ≤ CHIP8_RAM_SIZE_BYTES then some (m addr) else none

/-- src/memory.rs `get_word(addr)`: big-endian 16-bit read,
`((word[0] as u16) << 8) + (word[1] as u16)`. -/
def get_word (m : Nat → Nat) (addr : Nat) : Option Nat :=
  if addr + 2 ≤ CHIP8_RAM_SIZE_BYTES then some (256 * m addr + m (addr + 1)) else none

/-- src/interpreter.rs `enum InterpreterState`. -/
inductive InterpreterState
  | FetchDecode
  | Execute
  | WaitInterrupt
deriving DecidableEq

/-- The decoded instruction.  The Rust source stores a function pointer to
one of the `inst_*` handlers; we represent the same information as a tag
naming the handler (spec §9 suggests exactly this rendering). -/
inductive Inst
  | clear_screen
  | ret
  | branch
  | subroutine
  | skip_vx_eq
  | skip_vx_ne
  | x_eq_y
  | load_vx
  | add_to_vx
  | load_x_with_y
  | x_or_with_y
  | x_and_with_y
  | x_xor_with_y
  | x_add_y
  | x_minus_y
  | rshift_y_load_x
  | y_minus_x
  | lshift_y_load_x
  | x_ne_y
  | set_i
  | jump_with_offset
  | random
  | draw_sprite
  | skip_key_eq
  | skip_key_ne
  | get_timer
  | set_timer
  | add_x_to_i
  | load_char
  | x_to_bcd
  | save_v_at_i
  | load_v_at_i
  | draw_sprite_pt2
deriving DecidableEq

/-- src/interpreter.rs `struct Chip8Interpreter`.  The `memory`,
`display` and `input` collaborators collapse to the byte store (the two
capabilities are external, spec §6); the remaining fields are the
interpreter registers, taken verbatim. -/
structure Chip8Interpreter where
  memory : Nat → Nat
  stack_pointer : Nat
  instruction : Option Inst
  instruction_data : Nat
  program_counter : Nat
  vx : Nat
  vy : Nat
  tone_timer : Nat
  general_timer : Nat
  random : Nat
  i : Nat
  display_pointer : Nat
  state : InterpreterState

/-- The opcode match inside `fetch_and_decode`: every `panic!` arm is
`none`. -/
def decode (inst : Nat) : Option Inst :=
  if inst = 0x00e0 then some .clear_screen
  else if inst = 0x00ee then some .ret
  else if inst < 0x1000 then none
  else if inst ≤ 0x1fff then some .branch
  else if inst ≤ 0x2fff then some .subroutine
  else if inst ≤ 0x3fff then some .skip_vx_eq
  else if inst ≤ 0x4fff then some .skip_vx_ne
  else if inst ≤ 0x5fff then some .x_eq_y
  else if inst ≤ 0x6fff then some .load_vx
  else if inst ≤ 0x7fff then some .add_to_vx
  else if inst ≤ 0x8fff then
    (match inst &&& 0xf with
     | 0x0 => some .load_x_with_y
     | 0x1 => some .x_or_with_y
     | 0x2 => some .x_and_with_y
     | 0x3 => some .x_xor_with_y
     | 0x4 => some .x_add_y
     | 0x5 => some .x_minus_y
     | 0x6 => some .rshift_y_load_x
     | 0x7 => some .y_minus_x
     | 0xe => some .lshift_y_load_x
     | _ => none)
  else if inst ≤ 0x9fff then some .x_ne_y
  else if inst ≤ 0xafff then some .set_i
  else if inst ≤ 0xbfff then some .jump_with_offset
  else if inst ≤ 0xcfff then some .random
  else if inst ≤ 0xdfff then some .draw_sprite
  else if inst ≤ 0xefff then
    (match inst &&& 0xff with
     | 0x9e => some .skip_key_eq
     | 0xa1 => some .skip_key_ne
     | _ => none)
  else if inst ≤ 0xffff then
    (match inst &&& 0xff with
     | 0x07 => some .get_timer
     | 0x15 => some .set_timer
     | 0x1e => some .add_x_to_i
     | 0x29 => some .load_char
     | 0x33 => some .x_to_bcd
     | 0x55 => some .save_v_at_i
     | 0x65 => some .load_v_at_i
     | _ => none)
  else none

/-- src/interpreter.rs `fetch_and_decode`: read the word at the program
counter, set `vx`/`vy` from fixed nibble positions, resolve the handler
(abort on an unknown opcode), advance the program counter by 2, move to
`Execute`, and report 40 cycles for `0xxx` opcodes and 68 otherwise. -/
def fetch_and_decode (s : Chip8Interpreter) : Option (Chip8Interpreter × Nat) := do
  let inst ← get_word s.memory s.program_counter
  let instr ← decode inst
  some ({ s with
            vx := (inst &&& 0x0f00) >>> 8
            vy := (inst &&& 0x00f0) >>> 4
            instruction := some instr
            instruction_data := inst
            program_counter := s.program_counter + 2
            state := .Execute },
        if 0x0fff < inst then 68 else 40)

/-- `inst_clear_screen` (00e0). -/
def inst_clear_screen (s : Chip8Interpreter) : Option (Chip8Interpreter × Nat) := do
  let m ← write s.memory (List.replicate 0x100 0) s.display_pointer 0x100
  some ({ s with memory := m }, 24)

/-- `inst_ret` (00ee): the stack pointer rises by 2 (the stack grows
downward) and the program counter is popped from the stack. -/
def inst_ret (s : Chip8Interpreter) : Option (Chip8Interpreter × Nat) := do
  let w ← get_word s.memory (s.stack_pointer + 2)
  some ({ s with stack_pointer := s.stack_pointer + 2, program_counter := w }, 10)

/-- `inst_branch` (1nnn). -/
def inst_branch (s : Chip8Interpreter) : Option (Chip8Interpreter × Nat) :=
  some ({ s with program_counter := s.instruction_data &&& 0xfff }, 12)

/-- `inst_subroutine` (2nnn): push the (already advanced) program counter
big-endian at the current stack pointer, then move the stack pointer
down by 2 and jump.  The `u16` casts to `u8` keep the low byte. -/
def inst_subroutine (s : Chip8Interpreter) : Option (Chip8Interpreter × Nat) := do
  let m ← write s.memory
            [(s.program_counter >>> 8) &&& 0xff, s.program_counter &&& 0xff]
            s.stack_pointer 2
  some ({ s with
            memory := m
            stack_pointer := s.stack_pointer - 2
            program_counter := s.instruction_data &&& 0xfff }, 26)

/-- `inst_skip_vx_eq` (3xnn). -/
def inst_skip_vx_eq (s : Chip8Interpreter) : Option (Chip8Interpreter × Nat) := do
  let lhs ← get_ro_byte s.memory (var_addr + s.vx)
  let rhs := s.instruction_data % 256
  if lhs = rhs then
    some ({ s with program_counter := s.program_counter + 2 }, 14)
  else
    some (s, 10)

/-- `inst_skip_vx_ne` (4xnn). -/
def inst_skip_vx_ne (s : Chip8Interpreter) : Option (Chip8Interpreter × Nat) := do
  let lhs ← get_ro_byte s.memory (var_addr + s.vx)
  let rhs := s.instruction_data % 256
  if lhs ≠ rhs then
    some ({ s with program_counter := s.program_counter + 2 }, 14)
  else
    some (s, 10)

/-- `inst_x_eq_y` (5xy0). -/
def inst_x_eq_y (s : Chip8Interpreter) : Option (Chip8Interpreter × Nat) := do
  let lhs ← get_ro_byte s.memory (var_addr + s.vx)
  let rhs ← get_ro_byte s.memory (var_addr + s.vy)
  if lhs = rhs then
    some ({ s with program_counter := s.program_counter + 2 }, 18)
  else
    some (s, 14)

/-- `inst_load_vx` (6xnn). -/
def inst_load_vx (s : Chip8Interpreter) : Option (Chip8Interpreter × Nat) := do
  let m ← write s.memory [s.instruction_data &&& 0xff] (var_addr + s.vx) 1
  some ({ s with memory := m }, 6)

/-- `inst_add_to_vx` (7xnn): `v[0] = (((v[0] as u16) + (data & 0xff)) & 0xff) as u8`. -/
def inst_add_to_vx (s : Chip8Interpreter) : Option (Chip8Interpreter × Nat) := do
  let v ← get_ro_byte s.memory (var_addr + s.vx)
  let m ← write s.memory [(v + (s.instruction_data &&& 0xff)) &&& 0xff] (var_addr + s.vx) 1
  some ({ s with memory := m }, 10)

/-- `inst_load_x_with_y` (8xy0). -/
def inst_load_x_with_y (s : Chip8Interpreter) : Option (Chip8Interpreter × Nat) := do
  let vy ← get_ro_byte s.memory (var_addr + s.vy)
  let m ← write s.memory [vy] (var_addr + s.vx) 1
  some ({ s with memory := m }, 12)

/-- `inst_x_or_with_y` (8xy1). -/
def inst_x_or_with_y (s : Chip8Interpreter) : Option (Chip8Interpreter × Nat) := do
  let vy ← get_ro_byte s.memory (var_addr + s.vy)
  let vx ← get_ro_byte s.memory (var_addr + s.vx)
  let m ← write s.memory [vx ||| vy] (var_addr + s.vx) 1
  some ({ s with memory := m }, 44)

/-- `inst_x_and_with_y` (8xy2). -/
def inst_x_and_with_y (s : Chip8Interpreter) : Option (Chip8Interpreter × Nat) := do
  let vy ← get_ro_byte s.memory (var_addr + s.vy)
  let vx ← get_ro_byte s.memory (var_addr + s.vx)
  let m ← write s.memory [vx &&& vy] (var_addr + s.vx) 1
  some ({ s with memory := m }, 44)

/-- `inst_x_xor_with_y` (8xy3). -/
def inst_x_xor_with_y (s : Chip8Interpreter) : Option (Chip8Interpreter × Nat) := do
  let vy ← get_ro_byte s.memory (var_addr + s.vy)
  let vx ← get_ro_byte s.memory (var_addr + s.vx)
  let m ← write s.memory [vx ^^^ vy] (var_addr + s.vx) 1
  some ({ s with memory := m }, 44)

/-- `inst_x_add_y` (8xy4): the sum is computed in `u16`, the low byte goes
back to VX and VF records the carry past 0xff. -/
def inst_x_add_y (s : Chip8Interpreter) : Option (Chip8Interpreter × Nat) := do
  let vy ← get_ro_byte s.memory (var_addr + s.vy)
  let vx ← get_ro_byte s.memory (var_addr + s.vx)
  let res := vx + vy
  let m ← write s.memory [res % 256] (var_addr + s.vx) 1
  let m ← write m [if 0xff < res then 1 else 0] (var_addr + 0xf) 1
  some ({ s with memory := m }, 44)

/-- `inst_x_minus_y` (8xy5): `res = 0x100 + vx - vy` in `u16`; the low
byte goes back to VX and VF is 0 exactly when the subtraction borrowed
(`res < 0x100`). -/
def inst_x_minus_y (s : Chip8Interpreter) : Option (Chip8Interpreter × Nat) := do
  let vy ← get_ro_byte s.memory (var_addr + s.vy)
  let vx ← get_ro_byte s.memory (var_addr + s.vx)
  let res := 0x100 + vx - vy
  let m ← write s.memory [res % 256] (var_addr + s.vx) 1
  let m ← write m [if res < 0x100 then 0 else 1] (var_addr + 0xf) 1
  some ({ s with memory := m }, 44)

/-- `inst_rshift_y_load_x` (8xy6): the shifted operand is VY; the result
lands in both VX and VY, VF receives VY's old bit 0. -/
def inst_rshift_y_load_x (s : Chip8Interpreter) : Option (Chip8Interpreter × Nat) := do
  let vy ← get_ro_byte s.memory (var_addr + s.vy)
  let res := vy >>> 1
  let m ← write s.memory [res] (var_addr + s.vx) 1
  let m ← write m [res] (var_addr + s.vy) 1
  let m ← write m [vy &&& 0x1] (var_addr + 0xf) 1
  some ({ s with memory := m }, 44)

/-- `inst_y_minus_x` (8xy7): `res = 0x100 + vy - vx` in `u16`. -/
def inst_y_minus_x (s : Chip8Interpreter) : Option (Chip8Interpreter × Nat) := do
  let vy ← get_ro_byte s.memory (var_addr + s.vy)
  let vx ← get_ro_byte s.memory (var_addr + s.vx)
  let res := 0x100 + vy - vx
  let m ← write s.memory [res % 256] (var_addr + s.vx) 1
  let m ← write m [if res < 0x100 then 0 else 1] (var_addr + 0xf) 1
  some ({ s with memory := m }, 44)

/-- `inst_lshift_y_load_x` (8xye): the shifted operand is VY; `u8`
shifting keeps the low 8 bits; VF receives VY's old bit 7. -/
def inst_lshift_y_load_x (s : Chip8Interpreter) : Option (Chip8Interpreter × Nat) := do
  let vy ← get_ro_byte s.memory (var_addr + s.vy)
  let res := (vy <<< 1) &&& 0xff
  let m ← write s.memory [res] (var_addr + s.vx) 1
  let m ← write m [res] (var_addr + s.vy) 1
  let m ← write m [(vy &&& 0x80) >>> 7] (var_addr + 0xf) 1
  some ({ s with memory := m }, 44)

/-- `inst_x_ne_y` (9xy0). -/
def inst_x_ne_y (s : Chip8Interpreter) : Option (Chip8Interpreter × Nat) := do
  let lhs ← get_ro_byte s.memory (var_addr + s.vx)
  let rhs ← get_ro_byte s.memory (var_addr + s.vy)
  if lhs ≠ rhs then
    some ({ s with program_counter := s.program_counter + 2 }, 18)
  else
    some (s, 14)

/-- `inst_set_i` (annn). -/
def inst_set_i (s : Chip8Interpreter) : Option (Chip8Interpreter × Nat) :=
  some ({ s with i := s.instruction_data &&& 0xfff }, 12)

/-- `inst_jump_with_offset` (bnnn): VIP behaviour, the offset register is
V0; the cost depends on whether a page boundary is crossed. -/
def inst_jump_with_offset (s : Chip8Interpreter) : Option (Chip8Interpreter × Nat) := do
  let offset ← get_ro_byte s.memory var_addr
  let pc := (s.instruction_data &&& 0xfff) + offset
  some ({ s with program_counter := pc },
        if (s.instruction_data &&& 0xf00) ≠ (pc &&& 0xf00) then 24 else 22)

/-- `inst_random` (cxnn): the VIP pseudo-random sequence, bit for bit.
`wrapping_add` on `u16`/`u8` becomes `% 65536` / `% 256`. -/
def inst_random (s : Chip8Interpreter) : Option (Chip8Interpreter × Nat) := do
  let r := (s.random + 1) % 65536
  let rand_addr := 0x100 + (0xff &&& r)
  let rv ← get_ro_byte s.memory rand_addr
  let rv := ((r >>> 8) + rv) % 256
  let rv := (rv / 2 + rv) % 256
  let m ← write s.memory [rv &&& (s.instruction_data &&& 0xff)] (var_addr + s.vx) 1
  some ({ s with random := (r &&& 0xff) + (rv <<< 8), memory := m }, 36)

/-- The work-area image of a sprite: for each source byte a right-shifted
contribution and (when the bit offset is nonzero) a carry-over
contribution into the next byte, interleaved exactly as the phase-one
loop lays them out at `work[idx*2]` / `work[idx*2+1]`. -/
def shifted_sprite : List Nat → Nat → List Nat
  | [], _ => []
  | b :: rest, off =>
      (b >>> off)
        :: (if off = 0 then 0 else (b <<< (8 - off)) % 256)
        :: shifted_sprite rest off

/-- `inst_draw_sprite` (dxyn), phase one: build the bit-shifted copy of
the sprite in the work area, then wait for the next display interrupt.
The bit offset `VX & 7` and the row count `opcode & 0xf` are written out
at each use rather than let-bound. -/
def inst_draw_sprite (s : Chip8Interpreter) : Option (Chip8Interpreter × Nat) := do
  let vxv ← get_ro_byte s.memory (var_addr + s.vx)
  let sprite ← get_ro_slice s.memory s.i (s.instruction_data &&& 0xf)
  -- the writable work slice `get_rw_slice(work_addr, 32)` cannot panic:
  -- work_addr + 32 = 0xef0 ≤ 4096 by the memory-map constants
  let m := writeBytes s.memory (shifted_sprite sprite (vxv &&& 0x7)) work_addr
  some ({ s with
            memory := m
            state := .WaitInterrupt
            instruction := some .draw_sprite_pt2 },
        26 + 10 * (s.instruction_data &&& 0xf) * (vxv &&& 0x7)
          + 7 * (s.instruction_data &&& 0xf))

/-- `draw_addr + (idx / 2) * 0x8 + idx % 2`: framebuffer offset targeted
by work byte `idx` in phase two. -/
def drawAddrAt (draw_addr idx : Nat) : Nat := draw_addr + idx / 2 * 8 + idx % 2

/-- The phase-two loop over the work bytes: thread the framebuffer slice
(offsets 0..255), the collision flag and the cycle count through the
per-byte body, skipping bytes off the bottom of the 256-byte framebuffer
or (for right-hand bytes) on the 64-byte boundary check. -/
def drawRun (draw_addr : Nat) :
    List Nat → Nat → (Nat → Nat) → Nat → Nat → ((Nat → Nat) × Nat × Nat)
  | [], _, vram, flag, dur => (vram, flag, dur)
  | b :: rest, idx, vram, flag, dur =>
    let this_addr := drawAddrAt draw_addr idx
    if 0x100 ≤ this_addr then
      drawRun draw_addr rest (idx + 1) vram flag dur
    else if idx % 2 = 1 ∧ this_addr &&& 0x3f = 0 then
      drawRun draw_addr rest (idx + 1) vram flag dur
    else if vram this_addr &&& b ≠ 0 then
      drawRun draw_addr rest (idx + 1)
        (fun a => if a = this_addr then vram this_addr ^^^ b else vram a)
        1 (dur + 2 + if idx % 2 = 0 then 17 else 8)
    else
      drawRun draw_addr rest (idx + 1)
        (fun a => if a = this_addr then vram this_addr ^^^ b else vram a)
        flag (dur + if idx % 2 = 0 then 17 else 8)

/-- `inst_draw_sprite_pt2` (dxyn after the interrupt): XOR the work bytes
into the framebuffer, accumulate the collision flag, and store it in VF.
The draw address is `(0x3f & VX) / 8 + (0x1f & VY) * 8` and the loop runs
over `rows * 2` work bytes (the `drawRun` term is written out at each of
its three uses — vram, collision flag, duration — rather than let-bound,
which is the same computation). -/
def inst_draw_sprite_pt2 (s : Chip8Interpreter) : Option (Chip8Interpreter × Nat) := do
  let vxb ← get_ro_byte s.memory (var_addr + s.vx)
  let vyb ← get_ro_byte s.memory (var_addr + s.vy)
  let work ← get_ro_slice s.memory work_addr ((0xf &&& s.instruction_data) * 2)
  -- the writable vram slice `get_rw_slice(display_addr, 0x100)` cannot
  -- panic: display_addr + 0x100 = 4096 by the memory-map constants
  let m ← write
      (fun a =>
        if display_addr ≤ a ∧ a < display_addr + 0x100 then
          (drawRun ((0x3f &&& vxb) / 8 + (0x1f &&& vyb) * 8) work 0
            (fun k => s.memory (display_addr + k)) 0 12).1 (a - display_addr)
        else s.memory a)
      [(drawRun ((0x3f &&& vxb) / 8 + (0x1f &&& vyb) * 8) work 0
          (fun k => s.memory (display_addr + k)) 0 12).2.1]
      (var_addr + 0xf) 1
  some ({ s with memory := m },
        (drawRun ((0x3f &&& vxb) / 8 + (0x1f &&& vyb) * 8) work 0
          (fun k => s.memory (display_addr + k)) 0 12).2.2)

/-- `inst_skip_key_eq` (ex9e): the external key source is non-blocking;
with no key available the instruction does not skip. -/
def inst_skip_key_eq (s : Chip8Interpreter) : Option (Chip8Interpreter × Nat) :=
  some (s, 14)

/-- `inst_skip_key_ne` (exa1): with no key available the instruction
skips. -/
def inst_skip_key_ne (s : Chip8Interpreter) : Option (Chip8Interpreter × Nat) :=
  some ({ s with program_counter := s.program_counter + 2 }, 18)

/-- `inst_get_timer` (fx07). -/
def inst_get_timer (s : Chip8Interpreter) : Option (Chip8Interpreter × Nat) := do
  let m ← write s.memory [s.general_timer] (var_addr + s.vx) 1
  some ({ s with memory := m }, 10)

/-- `inst_set_timer` (fx15). -/
def inst_set_timer (s : Chip8Interpreter) : Option (Chip8Interpreter × Nat) := do
  let v ← get_ro_byte s.memory (var_addr + s.vx)
  some ({ s with general_timer := v }, 10)

/-- `inst_add_x_to_i` (fx1e): the cost distinguishes whether the add
crosses a 256-byte page. -/
def inst_add_x_to_i (s : Chip8Interpreter) : Option (Chip8Interpreter × Nat) := do
  let vx ← get_ro_byte s.memory (var_addr + s.vx)
  let old_i := s.i
  let ni := s.i + vx
  some ({ s with i := ni },
        if (old_i &&& 0xff00) = (ni &&& 0xff00) then 16 else 22)

/-- `inst_load_char` (fx29): font lookup through the embedded interpreter
image at `0x8100 + ch` (an address past the 4096-byte RAM, so the
read-only slice take panics — faithfully `none` here). -/
def inst_load_char (s : Chip8Interpreter) : Option (Chip8Interpreter × Nat) := do
  let vx ← get_ro_byte s.memory (var_addr + s.vx)
  let ch := 0xf &&& vx
  let lookup_addr ← get_ro_byte s.memory (0x8100 + ch)
  some ({ s with i := 0x8100 + lookup_addr }, 20)

/-- `inst_x_to_bcd` (fx33). -/
def inst_x_to_bcd (s : Chip8Interpreter) : Option (Chip8Interpreter × Nat) := do
  let v ← get_ro_byte s.memory (var_addr + s.vx)
  let m ← write s.memory [v / 100, v % 100 / 10, v % 100 % 10] s.i 3
  some ({ s with memory := m }, 84 + 16 * (v / 100 + v % 100 / 10 + v % 100 % 10))

/-- `inst_save_v_at_i` (fx55): I is left one past the last register
written. -/
def inst_save_v_at_i (s : Chip8Interpreter) : Option (Chip8Interpreter × Nat) := do
  let v ← get_ro_slice s.memory var_addr (1 + s.vx)
  let m ← write s.memory v s.i v.length
  some ({ s with memory := m, i := s.i + s.vx + 1 }, 14 + 14 * (1 + s.vx) + 4)

/-- `inst_load_v_at_i` (fx65). -/
def inst_load_v_at_i (s : Chip8Interpreter) : Option (Chip8Interpreter × Nat) := do
  let v ← get_ro_slice s.memory s.i (1 + s.vx)
  let m ← write s.memory v var_addr v.length
  some ({ s with memory := m, i := s.i + s.vx + 1 }, 14 + 14 * (1 + s.vx) + 4)

/-- Dispatch the decoded handler tag to its handler (the Rust source
calls through the stored function pointer). -/
def exec (s : Chip8Interpreter) : Inst → Option (Chip8Interpreter × Nat)
  | .clear_screen => inst_clear_screen s
  | .ret => inst_ret s
  | .branch => inst_branch s
  | .subroutine => inst_subroutine s
  | .skip_vx_eq => inst_skip_vx_eq s
  | .skip_vx_ne => inst_skip_vx_ne s
  | .x_eq_y => inst_x_eq_y s
  | .load_vx => inst_load_vx s
  | .add_to_vx => inst_add_to_vx s
  | .load_x_with_y => inst_load_x_with_y s
  | .x_or_with_y => inst_x_or_with_y s
  | .x_and_with_y => inst_x_and_with_y s
  | .x_xor_with_y => inst_x_xor_with_y s
  | .x_add_y => inst_x_add_y s
  | .x_minus_y => inst_x_minus_y s
  | .rshift_y_load_x => inst_rshift_y_load_x s
  | .y_minus_x => inst_y_minus_x s
  | .lshift_y_load_x => inst_lshift_y_load_x s
  | .x_ne_y => inst_x_ne_y s
  | .set_i => inst_set_i s
  | .jump_with_offset => inst_jump_with_offset s
  | .random => inst_random s
  | .draw_sprite => inst_draw_sprite s
  | .skip_key_eq => inst_skip_key_eq s
  | .skip_key_ne => inst_skip_key_ne s
  | .get_timer => inst_get_timer s
  | .set_timer => inst_set_timer s
  | .add_x_to_i => inst_add_x_to_i s
  | .load_char => inst_load_char s
  | .x_to_bcd => inst_x_to_bcd s
  | .save_v_at_i => inst_save_v_at_i s
  | .load_v_at_i => inst_load_v_at_i s
  | .draw_sprite_pt2 => inst_draw_sprite_pt2 s

/-- src/interpreter.rs `call`: move back to `FetchDecode` *before*
invoking the handler (the handler may itself set `WaitInterrupt`); a
missing decoded instruction is a panic. -/
def call (s : Chip8Interpreter) : Option (Chip8Interpreter × Nat) :=
  match s.instruction with
  | some instr => exec { s with state := .FetchDecode } instr
  | none => none

/-- src/interpreter.rs `cycle`: one state-machine step. -/
def cycle (s : Chip8Interpreter) : Option (Chip8Interpreter × Nat) :=
  match s.state with
  | .FetchDecode => fetch_and_decode s
  | .Execute => call s
  | .WaitInterrupt => some (s, 1)

/-- src/interpreter.rs `interrupt`: advance the random seed, decrement
the nonzero timers (+8 / +4 cycles), hand the framebuffer to the Display
collaborator (a bounds-checked read; the external draw itself always
succeeds here), and resume a `WaitInterrupt` state to `Execute`.  The
returned duration starts from the 807 + 1024 cycle base. -/
def interrupt (s : Chip8Interpreter) : Option (Chip8Interpreter × Nat) := do
  let dur := 807 + 1024
  let r := (s.random + 1) % 65536
  let gt := if 0 < s.general_timer then s.general_timer - 1 else s.general_timer
  let dur := if 0 < s.general_timer then dur + 8 else dur
  let tt := if 0 < s.tone_timer then s.tone_timer - 1 else s.tone_timer
  let dur := if 0 < s.tone_timer then dur + 4 else dur
  let _ ← get_ro_slice s.memory s.display_pointer 0x100
  let st := if s.state = InterpreterState.WaitInterrupt then InterpreterState.Execute
            else s.state
  some ({ s with random := r, general_timer := gt, tone_timer := tt, state := st }, dur)

/-- One complete draw-sprite execution: fetch, phase one, the display
interrupt, phase two. -/
def drawCycle (s : Chip8Interpreter) : Option Chip8Interpreter := do
  let r1 ← cycle s
  let r2 ← cycle r1.1
  let r3 ← interrupt r2.1
  let r4 ← cycle r3.1
  some r4.1

/-- Two complete draw-sprite executions at the same program region:
fetch, phase one, interrupt, phase two — twice over.  This is the
double-XOR scenario of the spec. -/
def doubleDraw (s : Chip8Interpreter) : Option Chip8Interpreter := do
  let t ← drawCycle s
  drawCycle t

/-! ### Bit-level helper lemmas -/

theorem and_fff_eq (x : Nat) : x &&& 0xfff = x % 4096 :=
  Nat.and_pow_two_sub_one_eq_mod x 12

theorem and_ff_eq (x : Nat) : x &&& 0xff = x % 256 :=
  Nat.and_pow_two_sub_one_eq_mod x 8

theorem and_f_eq (x : Nat) : x &&& 0xf = x % 16 :=
  Nat.and_pow_two_sub_one_eq_mod x 4

theorem and_seven_eq (x : Nat) : x &&& 0x7 = x % 8 :=
  Nat.and_pow_two_sub_one_eq_mod x 3

theorem mask_3f_eq (x : Nat) : 0x3f &&& x = x % 64 := by
  rw [Nat.land_comm]; exact Nat.and_pow_two_sub_one_eq_mod x 6

theorem mask_1f_eq (x : Nat) : 0x1f &&& x = x % 32 := by
  rw [Nat.land_comm]; exact Nat.and_pow_two_sub_one_eq_mod x 5

theorem mask_f_eq (x : Nat) : 0xf &&& x = x % 16 := by
  rw [Nat.land_comm]; exact Nat.and_pow_two_sub_one_eq_mod x 4

theorem mask_ff_eq (x : Nat) : 0xff &&& x = x % 256 := by
  rw [Nat.land_comm]; exact Nat.and_pow_two_sub_one_eq_mod x 8

theorem shr8_eq (x : Nat) : x >>> 8 = x / 256 :=
  Nat.shiftRight_eq_div_pow x 8

theorem shr4_eq (x : Nat) : x >>> 4 = x / 16 :=
  Nat.shiftRight_eq_div_pow x 4

theorem shr1_eq (x : Nat) : x >>> 1 = x / 2 :=
  Nat.shiftRight_eq_div_pow x 1

theorem shl1_eq (x : Nat) : x <<< 1 = x * 2 :=
  Nat.shiftLeft_eq x 1

theorem bit7_eq (v : Nat) (h : v < 256) : (v &&& 0x80) >>> 7 = v / 128 := by
  rw [show (0x80 : Nat) = 2 ^ 7 by norm_num, Nat.and_two_pow v 7,
      Nat.shiftRight_eq_div_pow]
  have h2 : v / 128 = 0 ∨ v / 128 = 1 := by omega
  rcases h2 with h1 | h1
  · rw [show v.testBit 7 = false by rw [Nat.testBit_to_div_mod]; simp; omega]
    simp [h1]
  · rw [show v.testBit 7 = true by rw [Nat.testBit_to_div_mod]; simp; omega]
    simp [h1]

theorem draw_nibble_x : ∀ x < 16, ∀ y < 16, ∀ n < 16,
    ((0xd000 + 256 * x + 16 * y + n) &&& 0x0f00) >>> 8 = x := by decide

theorem draw_nibble_y : ∀ x < 16, ∀ y < 16, ∀ n < 16,
    ((0xd000 + 256 * x + 16 * y + n) &&& 0x00f0) >>> 4 = y := by decide

/-! ### Memory-model helper lemmas -/

theorem writeBytes_out {m : Nat → Nat} {l : List Nat} {addr a : Nat}
    (h : a < addr ∨ addr + l.length ≤ a) : writeBytes m l addr a = m a := by
  unfold writeBytes
  rw [if_neg]; omega

theorem writeBytes_in {m : Nat → Nat} {l : List Nat} {addr a : Nat}
    (h1 : addr ≤ a) (h2 : a < addr + l.length) :
    writeBytes m l addr a = l.getD (a - addr) 0 := by
  unfold writeBytes
  rw [if_pos ⟨h1, h2⟩]

theorem write_eq_some {m : Nat → Nat} {data : List Nat} {addr len : Nat}
    (h : addr + len ≤ CHIP8_RAM_SIZE_BYTES) :
    write m data addr len = some (writeBytes m (data.take len) addr) := by
  unfold write
  rw [if_pos h]

theorem write_one_eq {m : Nat → Nat} {v addr : Nat}
    (h : addr + 1 ≤ CHIP8_RAM_SIZE_BYTES) :
    write m [v] addr 1 = some (fun a => if a = addr then v else m a) := by
  rw [write_eq_some h]
  congr 1
  funext a
  by_cases h2 : a = addr
  · subst h2
    rw [if_pos rfl, writeBytes_in (Nat.le_refl a) (by simp)]
    simp
  · rw [if_neg h2, writeBytes_out (by simp; omega)]

theorem get_ro_byte_eq {m : Nat → Nat} {addr : Nat}
    (h : addr + 1 ≤ CHIP8_RAM_SIZE_BYTES) : get_ro_byte m addr = some (m addr) := by
  unfold get_ro_byte
  rw [if_pos h]

theorem get_word_eq {m : Nat → Nat} {addr : Nat}
    (h : addr + 2 ≤ CHIP8_RAM_SIZE_BYTES) :
    get_word m addr = some (256 * m addr + m (addr + 1)) := by
  unfold get_word
  rw [if_pos h]

theorem get_ro_slice_eq {m : Nat → Nat} {addr len : Nat}
    (h : addr + len ≤ CHIP8_RAM_SIZE_BYTES) :
    get_ro_slice m addr len = some ((List.range len).map fun k => m (addr + k)) := by
  unfold get_ro_slice
  rw [if_pos h]

theorem ram_eq : CHIP8_RAM_SIZE_BYTES = 4096 := rfl

/-! ### Claim C2: interrupt timers and duration -/

/-- C2: for every interpreter state (whose display pointer admits the
256-byte framebuffer read, as the reference configuration does),
`interrupt` decrements `general_timer` and `tone_timer` only when they
are nonzero — so neither timer ever drops below zero — and the returned
duration is the 807 + 1024 base plus 8 exactly when `general_timer` was
nonzero and plus 4 exactly when `tone_timer` was nonzero. -/
theorem claim_C2_interrupt_timers (s : Chip8Interpreter)
    (hdp : s.display_pointer + 0x100 ≤ CHIP8_RAM_SIZE_BYTES) :
    ∃ s2 d, interrupt s = some (s2, d)
      ∧ s2.general_timer = (if 0 < s.general_timer then s.general_timer - 1
                            else s.general_timer)
      ∧ s2.tone_timer = (if 0 < s.tone_timer then s.tone_timer - 1
                         else s.tone_timer)
      ∧ d = 807 + 1024 + (if 0 < s.general_timer then 8 else 0)
              + (if 0 < s.tone_timer then 4 else 0) := by
  unfold interrupt
  rw [get_ro_slice_eq hdp]
  refine ⟨_, _, rfl, rfl, rfl, ?_⟩
  by_cases h1 : 0 < s.general_timer <;> by_cases h2 : 0 < s.tone_timer <;>
    simp [h1, h2]

/-- Concrete interpreter state used by the C2 witness. -/
def c2state : Chip8Interpreter :=
  { memory := fun _ => 0
    stack_pointer := stack_addr
    instruction := none
    instruction_data := 0
    program_counter := CHIP8_PROGRAM_ADDR
    vx := 0
    vy := 0
    tone_timer := 0
    general_timer := 3
    random := 0
    i := 0
    display_pointer := display_addr
    state := .FetchDecode }

/-- Witness for C2 at a concrete state with a live general timer and an
expired tone timer. -/
theorem claim_C2_witness :
    c2state.display_pointer + 0x100 ≤ CHIP8_RAM_SIZE_BYTES ∧
    ∃ s2 d, interrupt c2state = some (s2, d)
      ∧ s2.general_timer = (if 0 < c2state.general_timer then c2state.general_timer - 1
                            else c2state.general_timer)
      ∧ s2.tone_timer = (if 0 < c2state.tone_timer then c2state.tone_timer - 1
                         else c2state.tone_timer)
      ∧ d = 807 + 1024 + (if 0 < c2state.general_timer then 8 else 0)
              + (if 0 < c2state.tone_timer then 4 else 0) :=
  ⟨by decide, claim_C2_interrupt_timers c2state (by decide)⟩

/-! ### Claim C7: MemoryMap::write bounds checking -/

/-- C7: `write(data, addr, len)` fails — the Rust slice take panics, the
emulator cannot continue — exactly when `addr + len` exceeds the total
memory size (4096 in the reference configuration); when in bounds (and
`data` supplies at least `len` bytes) it copies exactly `len` bytes from
`data` into memory at `addr`, leaving every other address untouched:
nothing is silently truncated. -/
theorem claim_C7_write_bounds (m : Nat → Nat) (data : List Nat) (addr len : Nat) :
    (write m data addr len = none ↔ CHIP8_RAM_SIZE_BYTES < addr + len)
    ∧ (len ≤ data.length → addr + len ≤ CHIP8_RAM_SIZE_BYTES →
        ∃ m2, write m data addr len = some m2
          ∧ (∀ k, k < len → m2 (addr + k) = data.getD k 0)
          ∧ (∀ a, a < addr ∨ addr + len ≤ a → m2 a = m a)) := by
  constructor
  · unfold write
    by_cases h : addr + len ≤ CHIP8_RAM_SIZE_BYTES
    · rw [if_pos h]
      simp
      omega
    · rw [if_neg h]
      simp
      omega
  · intro hlen h
    refine ⟨_, write_eq_some h, ?_, ?_⟩
    · intro k hk
      rw [writeBytes_in (by omega) (by simp; omega), Nat.add_sub_cancel_left]
      simp [List.getD, List.getElem?_take, hk]
    · intro a ha
      rw [writeBytes_out (by simp; omega)]

/-- Witness for C7: an in-bounds three-byte write lands byte-for-byte. -/
theorem claim_C7_witness :
    3 ≤ ([1, 2, 3] : List Nat).length ∧ 10 + 3 ≤ CHIP8_RAM_SIZE_BYTES ∧
    ∃ m2, write (fun _ => 0) [1, 2, 3] 10 3 = some m2
      ∧ (∀ k, k < 3 → m2 (10 + k) = [1, 2, 3].getD k 0)
      ∧ (∀ a, a < 10 ∨ 10 + 3 ≤ a → m2 a = 0) :=
  ⟨by decide, by decide,
    (claim_C7_write_bounds (fun _ => 0) [1, 2, 3] 10 3).2 (by decide) (by decide)⟩

/-! ### Claim C4: 8xy4 add with carry -/

/-- C4: for all 8-bit values of VX and VY (VX held in a register other
than VF, so the carry flag does not clobber the result), opcode 8xy4
stores `(VX + VY) mod 256` in VX and sets VF to 1 exactly when the
unsigned sum exceeds 0xff. -/
theorem claim_C4_add_carry (s : Chip8Interpreter) (x y : Nat)
    (hvx : s.vx = x) (hvy : s.vy = y) (hx : x < 16) (hy : y < 16) (hx15 : x ≠ 15)
    (hbx : s.memory (var_addr + x) < 256) (hby : s.memory (var_addr + y) < 256) :
    ∃ s2, inst_x_add_y s = some (s2, 44)
      ∧ s2.memory (var_addr + x)
          = (s.memory (var_addr + x) + s.memory (var_addr + y)) % 256
      ∧ s2.memory (var_addr + 0xf)
          = (if 0xff < s.memory (var_addr + x) + s.memory (var_addr + y)
             then 1 else 0) := by
  subst hvx hvy
  have hb1 : var_addr + s.vy + 1 ≤ CHIP8_RAM_SIZE_BYTES := by
    simp only [var_addr_eq, ram_eq]; omega
  have hb2 : var_addr + s.vx + 1 ≤ CHIP8_RAM_SIZE_BYTES := by
    simp only [var_addr_eq, ram_eq]; omega
  have hb3 : var_addr + 0xf + 1 ≤ CHIP8_RAM_SIZE_BYTES := by
    simp only [var_addr_eq, ram_eq]; omega
  have hne : var_addr + s.vx ≠ var_addr + 0xf := by omega
  unfold inst_x_add_y
  rw [get_ro_byte_eq hb1]
  simp only [Option.bind_eq_bind, Option.some_bind]
  rw [get_ro_byte_eq hb2]
  simp only [Option.some_bind]
  rw [write_one_eq hb2]
  simp only [Option.some_bind]
  rw [write_one_eq hb3]
  simp only [Option.some_bind]
  refine ⟨_, rfl, ?_, ?_⟩
  · simp [hne]
  · simp

/-- Concrete state for the C4 witness: V1 = 0xed, V2 = 0x4b, the spec's
carry instance. -/
def c4state : Chip8Interpreter :=
  { memory := fun a => if a = var_addr + 1 then 0xed
              else if a = var_addr + 2 then 0x4b else 0
    stack_pointer := stack_addr
    instruction := some .x_add_y
    instruction_data := 0x8124
    program_counter := CHIP8_PROGRAM_ADDR + 2
    vx := 1
    vy := 2
    tone_timer := 0
    general_timer := 0
    random := 0
    i := 0
    display_pointer := display_addr
    state := .Execute }

/-- Witness for C4 at VX = 0xed, VY = 0x4b (the spec instance with
carry). -/
theorem claim_C4_witness :
    c4state.memory (var_addr + 1) = 0xed ∧ c4state.memory (var_addr + 2) = 0x4b ∧
    ∃ s2, inst_x_add_y c4state = some (s2, 44)
      ∧ s2.memory (var_addr + 1)
          = (c4state.memory (var_addr + 1) + c4state.memory (var_addr + 2)) % 256
      ∧ s2.memory (var_addr + 0xf)
          = (if 0xff < c4state.memory (var_addr + 1) + c4state.memory (var_addr + 2)
             then 1 else 0) :=
  ⟨by decide, by decide,
    claim_C4_add_carry c4state 1 2 rfl rfl (by decide) (by decide) (by decide)
      (by decide) (by decide)⟩

/-! ### Claim C3: 8xy5 / 8xy7 subtract borrow polarity -/

/-- C3: for all 8-bit values of VX and VY (VX held outside VF), opcode
8xy5 stores the mod-256 difference VX - VY in VX with VF = 1 exactly
when VX ≥ VY (no borrow), and opcode 8xy7 stores VY - VX with VF = 1
exactly when VY ≥ VX.  The Rust code computes `0x100 + lhs - rhs` in
`u16` and keeps the low byte, which is the mod-256 difference for 8-bit
operands. -/
theorem claim_C3_sub_borrow (s : Chip8Interpreter) (x y : Nat)
    (hvx : s.vx = x) (hvy : s.vy = y) (hx : x < 16) (hy : y < 16) (hx15 : x ≠ 15)
    (hbx : s.memory (var_addr + x) < 256) (hby : s.memory (var_addr + y) < 256) :
    (∃ s2, inst_x_minus_y s = some (s2, 44)
      ∧ s2.memory (var_addr + x)
          = (0x100 + s.memory (var_addr + x) - s.memory (var_addr + y)) % 256
      ∧ s2.memory (var_addr + 0xf)
          = (if s.memory (var_addr + y) ≤ s.memory (var_addr + x) then 1 else 0))
    ∧ (∃ s3, inst_y_minus_x s = some (s3, 44)
      ∧ s3.memory (var_addr + x)
          = (0x100 + s.memory (var_addr + y) - s.memory (var_addr + x)) % 256
      ∧ s3.memory (var_addr + 0xf)
          = (if s.memory (var_addr + x) ≤ s.memory (var_addr + y) then 1 else 0)) := by
  subst hvx hvy
  have hb1 : var_addr + s.vy + 1 ≤ CHIP8_RAM_SIZE_BYTES := by
    simp only [var_addr_eq, ram_eq]; omega
  have hb2 : var_addr + s.vx + 1 ≤ CHIP8_RAM_SIZE_BYTES := by
    simp only [var_addr_eq, ram_eq]; omega
  have hb3 : var_addr + 0xf + 1 ≤ CHIP8_RAM_SIZE_BYTES := by
    simp only [var_addr_eq, ram_eq]; omega
  have hne : var_addr + s.vx ≠ var_addr + 0xf := by omega
  constructor
  · unfold inst_x_minus_y
    rw [get_ro_byte_eq hb1]
    simp only [Option.bind_eq_bind, Option.some_bind]
    rw [get_ro_byte_eq hb2]
    simp only [Option.some_bind]
    rw [write_one_eq hb2]
    simp only [Option.some_bind]
    rw [write_one_eq hb3]
    simp only [Option.some_bind]
    refine ⟨_, rfl, ?_, ?_⟩
    · simp [hne]
    · simp only []
      rw [if_true]
      by_cases h : s.memory (var_addr + s.vy) ≤ s.memory (var_addr + s.vx)
      · rw [if_pos h, if_neg (by omega)]
      · rw [if_neg h, if_pos (by omega)]
  · unfold inst_y_minus_x
    rw [get_ro_byte_eq hb1]
    simp only [Option.bind_eq_bind, Option.some_bind]
    rw [get_ro_byte_eq hb2]
    simp only [Option.some_bind]
    rw [write_one_eq hb2]
    simp only [Option.some_bind]
    rw [write_one_eq hb3]
    simp only [Option.some_bind]
    refine ⟨_, rfl, ?_, ?_⟩
    · simp [hne]
    · simp only []
      rw [if_true]
      by_cases h : s.memory (var_addr + s.vx) ≤ s.memory (var_addr + s.vy)
      · rw [if_pos h, if_neg (by omega)]
      · rw [if_neg h, if_pos (by omega)]

/-- Concrete state for the C3 witness: V1 = 0x4b, V2 = 0x2d, the spec's
no-borrow instance (the reversed-operand borrow case is covered by the
8xy7 half of the claim on the same registers). -/
def c3state : Chip8Interpreter :=
  { memory := fun a => if a = var_addr + 1 then 0x4b
              else if a = var_addr + 2 then 0x2d else 0
    stack_pointer := stack_addr
    instruction := some .x_minus_y
    instruction_data := 0x8125
    program_counter := CHIP8_PROGRAM_ADDR + 2
    vx := 1
    vy := 2
    tone_timer := 0
    general_timer := 0
    random := 0
    i := 0
    display_pointer := display_addr
    state := .Execute }

/-- Witness for C3 at VX = 0x4b, VY = 0x2d: 8xy5 yields VX = 0x1e with
VF = 1, and 8xy7 (the subtraction with the operand values reversed)
yields VF = 0. -/
theorem claim_C3_witness :
    c3state.memory (var_addr + 1) = 0x4b ∧ c3state.memory (var_addr + 2) = 0x2d ∧
    (∃ s2, inst_x_minus_y c3state = some (s2, 44)
      ∧ s2.memory (var_addr + 1)
          = (0x100 + c3state.memory (var_addr + 1) - c3state.memory (var_addr + 2)) % 256
      ∧ s2.memory (var_addr + 0xf)
          = (if c3state.memory (var_addr + 2) ≤ c3state.memory (var_addr + 1)
             then 1 else 0))
    ∧ (∃ s3, inst_y_minus_x c3state = some (s3, 44)
      ∧ s3.memory (var_addr + 1)
          = (0x100 + c3state.memory (var_addr + 2) - c3state.memory (var_addr + 1)) % 256
      ∧ s3.memory (var_addr + 0xf)
          = (if c3state.memory (var_addr + 1) ≤ c3state.memory (var_addr + 2)
             then 1 else 0)) :=
  ⟨by decide, by decide,
    (claim_C3_sub_borrow c3state 1 2 rfl rfl (by decide) (by decide) (by decide)
      (by decide) (by decide)).1,
    (claim_C3_sub_borrow c3state 1 2 rfl rfl (by decide) (by decide) (by decide)
      (by decide) (by decide)).2⟩

/-! ### Claim C5: the shifted operand is VY -/

/-- C5: for every 8-bit value of VY, opcode 8xy6 stores `VY >> 1` into
VX and VY's old bit 0 into VF, and opcode 8xye stores `(VY << 1) mod
256` into VX and VY's old bit 7 into VF (VX held outside VF so the flag
write does not clobber the result). -/
theorem claim_C5_shift_operand_vy (s : Chip8Interpreter) (x y : Nat)
    (hvx : s.vx = x) (hvy : s.vy = y) (hx : x < 16) (hy : y < 16) (hx15 : x ≠ 15)
    (hby : s.memory (var_addr + y) < 256) :
    (∃ s2, inst_rshift_y_load_x s = some (s2, 44)
      ∧ s2.memory (var_addr + x) = s.memory (var_addr + y) / 2
      ∧ s2.memory (var_addr + 0xf) = s.memory (var_addr + y) % 2)
    ∧ (∃ s3, inst_lshift_y_load_x s = some (s3, 44)
      ∧ s3.memory (var_addr + x) = 2 * s.memory (var_addr + y) % 256
      ∧ s3.memory (var_addr + 0xf) = s.memory (var_addr + y) / 128) := by
  subst hvx hvy
  have hb1 : var_addr + s.vy + 1 ≤ CHIP8_RAM_SIZE_BYTES := by
    simp only [var_addr_eq, ram_eq]; omega
  have hb2 : var_addr + s.vx + 1 ≤ CHIP8_RAM_SIZE_BYTES := by
    simp only [var_addr_eq, ram_eq]; omega
  have hb3 : var_addr + 0xf + 1 ≤ CHIP8_RAM_SIZE_BYTES := by
    simp only [var_addr_eq, ram_eq]; omega
  have hnex : var_addr + s.vx ≠ var_addr + 0xf := by omega
  constructor
  · unfold inst_rshift_y_load_x
    rw [get_ro_byte_eq hb1]
    simp only [Option.bind_eq_bind, Option.some_bind]
    rw [write_one_eq hb2]
    simp only [Option.some_bind]
    rw [write_one_eq hb1]
    simp only [Option.some_bind]
    rw [write_one_eq hb3]
    simp only [Option.some_bind]
    refine ⟨_, rfl, ?_, ?_⟩
    · simp only []
      rw [if_neg hnex, shr1_eq]
      by_cases hxy : var_addr + s.vx = var_addr + s.vy
      · rw [if_pos hxy]
      · rw [if_neg hxy, if_true]
    · simp only []
      rw [if_true, Nat.and_one_is_mod]
  · unfold inst_lshift_y_load_x
    rw [get_ro_byte_eq hb1]
    simp only [Option.bind_eq_bind, Option.some_bind]
    rw [write_one_eq hb2]
    simp only [Option.some_bind]
    rw [write_one_eq hb1]
    simp only [Option.some_bind]
    rw [write_one_eq hb3]
    simp only [Option.some_bind]
    refine ⟨_, rfl, ?_, ?_⟩
    · simp only []
      rw [if_neg hnex, shl1_eq, and_ff_eq, Nat.mul_comm]
      by_cases hxy : var_addr + s.vx = var_addr + s.vy
      · rw [if_pos hxy]
      · rw [if_neg hxy, if_true]
    · simp only []
      rw [if_true, bit7_eq _ hby]

/-- Concrete state for the C5 witness: V2 = 0x2d. -/
def c5state : Chip8Interpreter :=
  { memory := fun a => if a = var_addr + 2 then 0x2d else 0
    stack_pointer := stack_addr
    instruction := some .rshift_y_load_x
    instruction_data := 0x8126
    program_counter := CHIP8_PROGRAM_ADDR + 2
    vx := 1
    vy := 2
    tone_timer := 0
    general_timer := 0
    random := 0
    i := 0
    display_pointer := display_addr
    state := .Execute }

/-- Witness for C5 at VY = 0x2d: 8xy6 gives VX = 0x16, VF = 1; 8xye
gives VX = 0x5a, VF = 0. -/
theorem claim_C5_witness :
    c5state.memory (var_addr + 2) = 0x2d ∧
    (∃ s2, inst_rshift_y_load_x c5state = some (s2, 44)
      ∧ s2.memory (var_addr + 1) = c5state.memory (var_addr + 2) / 2
      ∧ s2.memory (var_addr + 0xf) = c5state.memory (var_addr + 2) % 2)
    ∧ (∃ s3, inst_lshift_y_load_x c5state = some (s3, 44)
      ∧ s3.memory (var_addr + 1) = 2 * c5state.memory (var_addr + 2) % 256
      ∧ s3.memory (var_addr + 0xf) = c5state.memory (var_addr + 2) / 128) :=
  ⟨by decide,
    (claim_C5_shift_operand_vy c5state 1 2 rfl rfl (by decide) (by decide)
      (by decide) (by decide)).1,
    (claim_C5_shift_operand_vy c5state 1 2 rfl rfl (by decide) (by decide)
      (by decide) (by decide)).2⟩

/-! ### Claim C10: the shifts write VY too, and nothing else changes -/

/-- C10 (implicit): both shift opcodes write the shifted result into VX
*and* VY (so VY does not keep its original value), put the shifted-out
bit into VF, and leave every other variable-bank register untouched. -/
theorem claim_C10_shift_frame (s : Chip8Interpreter) (x y : Nat)
    (hvx : s.vx = x) (hvy : s.vy = y) (hx : x < 16) (hy : y < 16)
    (hx15 : x ≠ 15) (hy15 : y ≠ 15) :
    (∃ s2, inst_rshift_y_load_x s = some (s2, 44)
      ∧ s2.memory (var_addr + x) = s.memory (var_addr + y) >>> 1
      ∧ s2.memory (var_addr + y) = s.memory (var_addr + y) >>> 1
      ∧ s2.memory (var_addr + 0xf) = s.memory (var_addr + y) &&& 0x1
      ∧ ∀ z, z < 16 → z ≠ x → z ≠ y → z ≠ 15 →
          s2.memory (var_addr + z) = s.memory (var_addr + z))
    ∧ (∃ s3, inst_lshift_y_load_x s = some (s3, 44)
      ∧ s3.memory (var_addr + x) = (s.memory (var_addr + y) <<< 1) &&& 0xff
      ∧ s3.memory (var_addr + y) = (s.memory (var_addr + y) <<< 1) &&& 0xff
      ∧ s3.memory (var_addr + 0xf) = (s.memory (var_addr + y) &&& 0x80) >>> 7
      ∧ ∀ z, z < 16 → z ≠ x → z ≠ y → z ≠ 15 →
          s3.memory (var_addr + z) = s.memory (var_addr + z)) := by
  subst hvx hvy
  have hb1 : var_addr + s.vy + 1 ≤ CHIP8_RAM_SIZE_BYTES := by
    simp only [var_addr_eq, ram_eq]; omega
  have hb2 : var_addr + s.vx + 1 ≤ CHIP8_RAM_SIZE_BYTES := by
    simp only [var_addr_eq, ram_eq]; omega
  have hb3 : var_addr + 0xf + 1 ≤ CHIP8_RAM_SIZE_BYTES := by
    simp only [var_addr_eq, ram_eq]; omega
  have hnex : var_addr + s.vx ≠ var_addr + 0xf := by omega
  have hney : var_addr + s.vy ≠ var_addr + 0xf := by omega
  constructor
  · unfold inst_rshift_y_load_x
    rw [get_ro_byte_eq hb1]
    simp only [Option.bind_eq_bind, Option.some_bind]
    rw [write_one_eq hb2]
    simp only [Option.some_bind]
    rw [write_one_eq hb1]
    simp only [Option.some_bind]
    rw [write_one_eq hb3]
    simp only [Option.some_bind]
    refine ⟨_, rfl, ?_, ?_, ?_, ?_⟩
    · simp only []
      rw [if_neg hnex]
      by_cases hxy : var_addr + s.vx = var_addr + s.vy
      · rw [if_pos hxy]
      · rw [if_neg hxy, if_true]
    · simp only []
      rw [if_neg hney, if_true]
    · simp only []
      rw [if_true]
    · intro z hz hzx hzy hz15
      simp only []
      rw [if_neg (by omega), if_neg (by omega), if_neg (by omega)]
  · unfold inst_lshift_y_load_x
    rw [get_ro_byte_eq hb1]
    simp only [Option.bind_eq_bind, Option.some_bind]
    rw [write_one_eq hb2]
    simp only [Option.some_bind]
    rw [write_one_eq hb1]
    simp only [Option.some_bind]
    rw [write_one_eq hb3]
    simp only [Option.some_bind]
    refine ⟨_, rfl, ?_, ?_, ?_, ?_⟩
    · simp only []
      rw [if_neg hnex]
      by_cases hxy : var_addr + s.vx = var_addr + s.vy
      · rw [if_pos hxy]
      · rw [if_neg hxy, if_true]
    · simp only []
      rw [if_neg hney, if_true]
    · simp only []
      rw [if_true]
    · intro z hz hzx hzy hz15
      simp only []
      rw [if_neg (by omega), if_neg (by omega), if_neg (by omega)]

/-- Concrete state for the C10 witness: V2 = 0xad, V3 = 0x77 as an
untouched bystander register. -/
def c10state : Chip8Interpreter :=
  { memory := fun a => if a = var_addr + 2 then 0xad
              else if a = var_addr + 3 then 0x77 else 0
    stack_pointer := stack_addr
    instruction := some .lshift_y_load_x
    instruction_data := 0x812e
    program_counter := CHIP8_PROGRAM_ADDR + 2
    vx := 1
    vy := 2
    tone_timer := 0
    general_timer := 0
    random := 0
    i := 0
    display_pointer := display_addr
    state := .Execute }

/-- Witness for C10 at VY = 0xad with x = 1, y = 2. -/
theorem claim_C10_witness :
    c10state.memory (var_addr + 2) = 0xad ∧
    (∃ s2, inst_rshift_y_load_x c10state = some (s2, 44)
      ∧ s2.memory (var_addr + 1) = c10state.memory (var_addr + 2) >>> 1
      ∧ s2.memory (var_addr + 2) = c10state.memory (var_addr + 2) >>> 1
      ∧ s2.memory (var_addr + 0xf) = c10state.memory (var_addr + 2) &&& 0x1
      ∧ ∀ z, z < 16 → z ≠ 1 → z ≠ 2 → z ≠ 15 →
          s2.memory (var_addr + z) = c10state.memory (var_addr + z))
    ∧ (∃ s3, inst_lshift_y_load_x c10state = some (s3, 44)
      ∧ s3.memory (var_addr + 1) = (c10state.memory (var_addr + 2) <<< 1) &&& 0xff
      ∧ s3.memory (var_addr + 2) = (c10state.memory (var_addr + 2) <<< 1) &&& 0xff
      ∧ s3.memory (var_addr + 0xf) = (c10state.memory (var_addr + 2) &&& 0x80) >>> 7
      ∧ ∀ z, z < 16 → z ≠ 1 → z ≠ 2 → z ≠ 15 →
          s3.memory (var_addr + z) = c10state.memory (var_addr + z)) :=
  ⟨by decide,
    (claim_C10_shift_frame c10state 1 2 rfl rfl (by decide) (by decide)
      (by decide) (by decide)).1,
    (claim_C10_shift_frame c10state 1 2 rfl rfl (by decide) (by decide)
      (by decide) (by decide)).2⟩

/-! ### Claims C8 and C9: fetch_and_decode program counter and cost -/

/-- C8 (amended): whenever `fetch_and_decode` succeeds — i.e. for every
opcode that resolves to a handler — it advances `program_counter` by
exactly 2.  (An opcode matching no handler is a fatal decode error: the
Rust code panics before the increment, so no advanced state exists; see
the counterexample.) -/
theorem claim_C8_pc_advance (s s2 : Chip8Interpreter) (c : Nat)
    (h : fetch_and_decode s = some (s2, c)) :
    s2.program_counter = s.program_counter + 2 := by
  unfold fetch_and_decode at h
  cases hw : get_word s.memory s.program_counter with
  | none => rw [hw] at h; exact Option.noConfusion h
  | some w =>
    rw [hw] at h
    simp only [Option.bind_eq_bind, Option.some_bind] at h
    cases hd : decode w with
    | none => rw [hd] at h; exact Option.noConfusion h
    | some instr =>
      rw [hd] at h
      simp only [Option.some_bind, Option.some.injEq, Prod.mk.injEq] at h
      rw [← h.1]

/-- Concrete all-zero memory state: the word at the program counter is
0x0000, which is in the 0x0xxx family but matches no handler. -/
def c89bad : Chip8Interpreter :=
  { memory := fun _ => 0
    stack_pointer := stack_addr
    instruction := none
    instruction_data := 0
    program_counter := CHIP8_PROGRAM_ADDR
    vx := 0
    vy := 0
    tone_timer := 0
    general_timer := 0
    random := 0
    i := 0
    display_pointer := display_addr
    state := .FetchDecode }

/-- Counterexample to C8 as stated: on opcode 0x0000 (an opcode that
matches no handler) `fetch_and_decode` aborts — the Rust `panic!` —
and no state with an advanced program counter is produced. -/
theorem claim_C8_counterexample :
    fetch_and_decode c89bad = none
    ∧ ¬ ∃ s2 c, fetch_and_decode c89bad = some (s2, c)
        ∧ s2.program_counter = c89bad.program_counter + 2 := by
  refine ⟨rfl, ?_⟩
  rintro ⟨s2, c, h, -⟩
  rw [show fetch_and_decode c89bad = none from rfl] at h
  exact Option.noConfusion h

/-- Concrete fetch state for the C8 witness (opcode 0x00e0 at the
program counter). -/
def c8state : Chip8Interpreter :=
  { memory := fun a => if a = 0x201 then 0xe0 else 0
    stack_pointer := stack_addr
    instruction := none
    instruction_data := 0
    program_counter := CHIP8_PROGRAM_ADDR
    vx := 0
    vy := 0
    tone_timer := 0
    general_timer := 0
    random := 0
    i := 0
    display_pointer := display_addr
    state := .FetchDecode }

/-- Witness for C8: fetching opcode 0x00e0 advances the program counter
from 0x200 to 0x202. -/
theorem claim_C8_witness :
    ∃ s2 c, fetch_and_decode c8state = some (s2, c)
      ∧ s2.program_counter = c8state.program_counter + 2 := by
  refine ⟨_, _, rfl, claim_C8_pc_advance c8state _ _ rfl⟩

/-- C9 (amended): whenever `fetch_and_decode` succeeds, the reported
cost is 40 machine cycles for opcodes in the 0x0xxx family (of which
only 00e0 and 00ee decode) and 68 for every other opcode; an opcode
that matches no handler aborts with no cost at all (see the
counterexample). -/
theorem claim_C9_fetch_cost (s s2 : Chip8Interpreter) (c : Nat)
    (h : fetch_and_decode s = some (s2, c)) :
    s2.instruction_data = 256 * s.memory s.program_counter + s.memory (s.program_counter + 1)
    ∧ c = (if 0x0fff < s2.instruction_data then 68 else 40) := by
  unfold fetch_and_decode at h
  cases hw : get_word s.memory s.program_counter with
  | none => rw [hw] at h; exact Option.noConfusion h
  | some w =>
    rw [hw] at h
    simp only [Option.bind_eq_bind, Option.some_bind] at h
    cases hd : decode w with
    | none => rw [hd] at h; exact Option.noConfusion h
    | some instr =>
      rw [hd] at h
      simp only [Option.some_bind, Option.some.injEq, Prod.mk.injEq] at h
      have hw2 : get_word s.memory s.program_counter
          = some (256 * s.memory s.program_counter + s.memory (s.program_counter + 1)) := by
        unfold get_word at hw ⊢
        by_cases hb : s.program_counter + 2 ≤ CHIP8_RAM_SIZE_BYTES
        · rw [if_pos hb]
        · rw [if_neg hb] at hw; exact Option.noConfusion hw
      rw [hw2] at hw
      have hwv : w = 256 * s.memory s.program_counter + s.memory (s.program_counter + 1) :=
        (Option.some.injEq _ _).mp hw.symm
      refine ⟨?_, ?_⟩
      · rw [← h.1, ← hwv]
      · rw [← h.1]
        exact h.2.symm

/-- Concrete fetch state for the C9 counterexample: opcode 0x0123 is in
the 0x0xxx family but matches no handler. -/
def c9bad : Chip8Interpreter :=
  { memory := fun a => if a = 0x200 then 0x01 else if a = 0x201 then 0x23 else 0
    stack_pointer := stack_addr
    instruction := none
    instruction_data := 0
    program_counter := CHIP8_PROGRAM_ADDR
    vx := 0
    vy := 0
    tone_timer := 0
    general_timer := 0
    random := 0
    i := 0
    display_pointer := display_addr
    state := .FetchDecode }

/-- Counterexample to C9 as stated: opcode 0x0123 is in the 0x0xxx
family, but `fetch_and_decode` aborts on it (the Rust `panic!`) instead
of returning 40 cycles. -/
theorem claim_C9_counterexample :
    fetch_and_decode c9bad = none
    ∧ ¬ ∃ s2 c, fetch_and_decode c9bad = some (s2, c) ∧ c = 40 := by
  refine ⟨rfl, ?_⟩
  rintro ⟨s2, c, h, -⟩
  rw [show fetch_and_decode c9bad = none from rfl] at h
  exact Option.noConfusion h

/-- Concrete fetch state for the C9 witness (opcode 0xa22a, a non-0x0xxx
opcode). -/
def c9state : Chip8Interpreter :=
  { memory := fun a => if a = 0x200 then 0xa2 else if a = 0x201 then 0x2a else 0
    stack_pointer := stack_addr
    instruction := none
    instruction_data := 0
    program_counter := CHIP8_PROGRAM_ADDR
    vx := 0
    vy := 0
    tone_timer := 0
    general_timer := 0
    random := 0
    i := 0
    display_pointer := display_addr
    state := .FetchDecode }

/-- Witness for C9: fetching opcode 0xa22a reports the 68-cycle cost. -/
theorem claim_C9_witness :
    ∃ s2 c, fetch_and_decode c9state = some (s2, c)
      ∧ s2.instruction_data
          = 256 * c9state.memory c9state.program_counter
              + c9state.memory (c9state.program_counter + 1)
      ∧ c = (if 0x0fff < s2.instruction_data then 68 else 40) := by
  refine ⟨_, _, rfl, (claim_C9_fetch_cost c9state _ _ rfl).1, (claim_C9_fetch_cost c9state _ _ rfl).2⟩

/-! ### State-machine step lemmas -/

theorem cycle_fetch (s : Chip8Interpreter) (h : s.state = .FetchDecode) :
    cycle s = fetch_and_decode s := by
  unfold cycle
  rw [h]

theorem cycle_call (s : Chip8Interpreter) (h : s.state = .Execute) :
    cycle s = call s := by
  unfold cycle
  rw [h]

theorem call_some (s : Chip8Interpreter) (instr : Inst) (h : s.instruction = some instr) :
    call s = exec { s with state := .FetchDecode } instr := by
  unfold call
  rw [h]

/-- The state produced by a successful `fetch_and_decode` of the word
`w` resolving to handler `instr`. -/
def fetchResult (s : Chip8Interpreter) (w : Nat) (instr : Inst) : Chip8Interpreter :=
  { s with
      vx := (w &&& 0x0f00) >>> 8
      vy := (w &&& 0x00f0) >>> 4
      instruction := some instr
      instruction_data := w
      program_counter := s.program_counter + 2
      state := .Execute }

theorem fetch_eq (s : Chip8Interpreter) (w : Nat) (instr : Inst)
    (hw : get_word s.memory s.program_counter = some w)
    (hd : decode w = some instr) :
    fetch_and_decode s
      = some (fetchResult s w instr, if 0x0fff < w then 68 else 40) := by
  unfold fetch_and_decode
  rw [hw]
  simp only [Option.bind_eq_bind, Option.some_bind]
  rw [hd]
  rfl

/-- The state produced by `inst_subroutine` (given the stack push is in
bounds). -/
def subroutineResult (s : Chip8Interpreter) : Chip8Interpreter :=
  { s with
      memory := writeBytes s.memory
        [(s.program_counter >>> 8) &&& 0xff, s.program_counter &&& 0xff]
        s.stack_pointer
      stack_pointer := s.stack_pointer - 2
      program_counter := s.instruction_data &&& 0xfff }

theorem subroutine_eq (s : Chip8Interpreter)
    (h : s.stack_pointer + 2 ≤ CHIP8_RAM_SIZE_BYTES) :
    inst_subroutine s = some (subroutineResult s, 26) := by
  unfold inst_subroutine
  rw [write_eq_some h]
  rfl

/-- The state produced by `inst_ret` (given the stack read is in
bounds). -/
def retResult (s : Chip8Interpreter) : Chip8Interpreter :=
  { s with
      stack_pointer := s.stack_pointer + 2
      program_counter := 256 * s.memory (s.stack_pointer + 2)
        + s.memory (s.stack_pointer + 2 + 1) }

theorem ret_eq (s : Chip8Interpreter)
    (h : s.stack_pointer + 2 + 2 ≤ CHIP8_RAM_SIZE_BYTES) :
    inst_ret s = some (retResult s, 10) := by
  unfold inst_ret
  rw [get_word_eq h]
  rfl

theorem decode_subroutine {w : Nat} (h1 : 0x2000 ≤ w) (h2 : w ≤ 0x2fff) :
    decode w = some .subroutine := by
  unfold decode
  repeat rw [if_neg (by omega)]
  rw [if_pos h2]

theorem decode_draw {w : Nat} (h1 : 0xd000 ≤ w) (h2 : w ≤ 0xdfff) :
    decode w = some .draw_sprite := by
  unfold decode
  repeat rw [if_neg (by omega)]
  rw [if_pos h2]

/-! ### Claim C6: call / return round trip -/

/-- C6: executing opcode 2nnn fetched at program counter p pushes the
big-endian return address p+2 at the pre-decrement stack pointer,
lowers the stack pointer by 2, jumps to nnn, and costs 26 cycles; a
subsequent 00EE at nnn raises the stack pointer back by 2 and restores
the program counter to p+2 at a cost of 10 cycles.  The hypotheses pin
the fetched words in memory: 2nnn at p, 00EE at nnn, both reads and the
stack push in bounds, and nnn's word outside the two pushed stack
bytes. -/
theorem claim_C6_call_ret (s : Chip8Interpreter) (nnn : Nat)
    (hst : s.state = .FetchDecode)
    (hnnn : nnn < 0x1000)
    (hp : s.program_counter + 2 ≤ CHIP8_RAM_SIZE_BYTES)
    (hb0 : s.memory s.program_counter = 0x20 + nnn / 256)
    (hb1 : s.memory (s.program_counter + 1) = nnn % 256)
    (hr0 : s.memory nnn = 0x00) (hr1 : s.memory (nnn + 1) = 0xee)
    (hsp : s.stack_pointer + 2 ≤ CHIP8_RAM_SIZE_BYTES) (hsp2 : 2 ≤ s.stack_pointer)
    (hnnn2 : nnn + 2 ≤ CHIP8_RAM_SIZE_BYTES)
    (hdisj : nnn + 2 ≤ s.stack_pointer ∨ s.stack_pointer + 2 ≤ nnn) :
    ∃ s1 c1 s2 s3 c3 s4,
      cycle s = some (s1, c1)
      ∧ cycle s1 = some (s2, 26)
      ∧ cycle s2 = some (s3, c3)
      ∧ cycle s3 = some (s4, 10)
      ∧ s2.memory s.stack_pointer = (s.program_counter + 2) / 256
      ∧ s2.memory (s.stack_pointer + 1) = (s.program_counter + 2) % 256
      ∧ s2.stack_pointer = s.stack_pointer - 2
      ∧ s2.program_counter = nnn
      ∧ s4.stack_pointer = s.stack_pointer
      ∧ s4.program_counter = s.program_counter + 2 := by
  -- abbreviations for the four machine states
  set S1 := fetchResult s (0x2000 + nnn) Inst.subroutine with hS1
  set S2 := subroutineResult { S1 with state := InterpreterState.FetchDecode } with hS2
  set S3 := fetchResult S2 0x00ee Inst.ret with hS3
  set S4 := retResult { S3 with state := InterpreterState.FetchDecode } with hS4
  have hlen : ([((s.program_counter + 2) >>> 8) &&& 0xff,
      (s.program_counter + 2) &&& 0xff] : List Nat).length = 2 := rfl
  have hw1 : get_word s.memory s.program_counter = some (0x2000 + nnn) := by
    rw [get_word_eq hp, hb0, hb1]
    exact congrArg some (by omega)
  have hm1a : writeBytes s.memory
      [((s.program_counter + 2) >>> 8) &&& 0xff, (s.program_counter + 2) &&& 0xff]
      s.stack_pointer nnn = s.memory nnn := by
    apply writeBytes_out
    rw [hlen]
    omega
  have hm1b : writeBytes s.memory
      [((s.program_counter + 2) >>> 8) &&& 0xff, (s.program_counter + 2) &&& 0xff]
      s.stack_pointer (nnn + 1) = s.memory (nnn + 1) := by
    apply writeBytes_out
    rw [hlen]
    omega
  have hpc2 : (0x2000 + nnn) &&& 0xfff = nnn := by
    rw [and_fff_eq]; omega
  have e1 : cycle s = some (S1, if 0x0fff < 0x2000 + nnn then 68 else 40) := by
    rw [cycle_fetch _ hst]
    exact fetch_eq _ (0x2000 + nnn) .subroutine hw1
      (decode_subroutine (by omega) (by omega))
  have e2 : cycle S1 = some (S2, 26) := by
    rw [cycle_call _ rfl, call_some _ .subroutine rfl]
    exact subroutine_eq _ hsp
  have hw3 : get_word S2.memory S2.program_counter = some 0x00ee := by
    show get_word
      (writeBytes s.memory
        [((s.program_counter + 2) >>> 8) &&& 0xff, (s.program_counter + 2) &&& 0xff]
        s.stack_pointer)
      ((0x2000 + nnn) &&& 0xfff) = some 0x00ee
    rw [hpc2, get_word_eq hnnn2, hm1a, hm1b, hr0, hr1]
  have e3 : cycle S2 = some (S3, if 0x0fff < 0x00ee then 68 else 40) := by
    rw [cycle_fetch _ rfl]
    exact fetch_eq _ 0x00ee .ret hw3 rfl
  have e4 : cycle S3 = some (S4, 10) := by
    rw [cycle_call _ rfl, call_some _ .ret rfl]
    exact ret_eq _ (show s.stack_pointer - 2 + 2 + 2 ≤ CHIP8_RAM_SIZE_BYTES by
      simp only [ram_eq] at hsp ⊢; omega)
  refine ⟨S1, _, S2, S3, _, S4, e1, e2, e3, e4, ?_, ?_, ?_, ?_, ?_, ?_⟩
  · show writeBytes s.memory
        [((s.program_counter + 2) >>> 8) &&& 0xff, (s.program_counter + 2) &&& 0xff]
        s.stack_pointer s.stack_pointer = (s.program_counter + 2) / 256
    rw [writeBytes_in (Nat.le_refl s.stack_pointer) (by rw [hlen]; omega), Nat.sub_self]
    simp only [List.getD_cons_zero]
    rw [shr8_eq, and_ff_eq]
    simp only [ram_eq] at hp
    omega
  · show writeBytes s.memory
        [((s.program_counter + 2) >>> 8) &&& 0xff, (s.program_counter + 2) &&& 0xff]
        s.stack_pointer (s.stack_pointer + 1) = (s.program_counter + 2) % 256
    rw [writeBytes_in (by omega) (by rw [hlen]; omega), Nat.add_sub_cancel_left]
    simp only [List.getD_cons_succ, List.getD_cons_zero]
    rw [and_ff_eq]
  · show s.stack_pointer - 2 = s.stack_pointer - 2
    rfl
  · show (0x2000 + nnn) &&& 0xfff = nnn
    exact hpc2
  · show s.stack_pointer - 2 + 2 = s.stack_pointer
    omega
  · show 256 * writeBytes s.memory
          [((s.program_counter + 2) >>> 8) &&& 0xff, (s.program_counter + 2) &&& 0xff]
          s.stack_pointer (s.stack_pointer - 2 + 2)
        + writeBytes s.memory
          [((s.program_counter + 2) >>> 8) &&& 0xff, (s.program_counter + 2) &&& 0xff]
          s.stack_pointer (s.stack_pointer - 2 + 2 + 1)
      = s.program_counter + 2
    rw [show s.stack_pointer - 2 + 2 = s.stack_pointer by omega]
    rw [writeBytes_in (Nat.le_refl s.stack_pointer) (by rw [hlen]; omega), Nat.sub_self,
        writeBytes_in (by omega) (by rw [hlen]; omega), Nat.add_sub_cancel_left]
    simp only [List.getD_cons_zero, List.getD_cons_succ]
    rw [shr8_eq, and_ff_eq, and_ff_eq]
    simp only [ram_eq] at hp
    omega

/-- Memory image for the C6 witness: 0x2345 at 0x200, 00EE at 0x345. -/
def c6mem : Nat → Nat := fun a =>
  if a = 0x200 then 0x23 else if a = 0x201 then 0x45
  else if a = 0x346 then 0xee else 0

/-- Concrete starting state for the C6 witness. -/
def c6state : Chip8Interpreter :=
  { memory := c6mem
    stack_pointer := stack_addr
    instruction := none
    instruction_data := 0
    program_counter := CHIP8_PROGRAM_ADDR
    vx := 0
    vy := 0
    tone_timer := 0
    general_timer := 0
    random := 0
    i := 0
    display_pointer := display_addr
    state := .FetchDecode }

/-- Witness for C6 at the spec instance: 0x2345 fetched at PC = 0x200
with the stack pointer at 0xece leaves [0x02, 0x02] on the stack (the
big-endian bytes of 0x202), PC = 0x345, cost 26; then 00EE restores
PC = 0x202. -/
theorem claim_C6_witness :
    ∃ s1 c1 s2 s3 c3 s4,
      cycle c6state = some (s1, c1)
      ∧ cycle s1 = some (s2, 26)
      ∧ cycle s2 = some (s3, c3)
      ∧ cycle s3 = some (s4, 10)
      ∧ s2.memory c6state.stack_pointer = (c6state.program_counter + 2) / 256
      ∧ s2.memory (c6state.stack_pointer + 1) = (c6state.program_counter + 2) % 256
      ∧ s2.stack_pointer = c6state.stack_pointer - 2
      ∧ s2.program_counter = 0x345
      ∧ s4.stack_pointer = c6state.stack_pointer
      ∧ s4.program_counter = c6state.program_counter + 2 :=
  claim_C6_call_ret c6state 0x345 rfl
    (by decide) (by decide) (by decide) (by decide) (by decide) (by decide)
    (by decide) (by decide) (by decide) (Or.inl (by decide))

/-! ### Claim C1: analysis of the two-phase sprite draw -/

/-- Work byte `idx` of a phase-two draw with framebuffer base `d` is
actually blitted: it is neither off the bottom of the 256-byte
framebuffer nor a right-hand byte caught by the 64-byte boundary
check. -/
def visibleAt (d idx : Nat) : Prop :=
  drawAddrAt d idx < 0x100 ∧ ¬(idx % 2 = 1 ∧ drawAddrAt d idx &&& 0x3f = 0)

instance (d idx : Nat) : Decidable (visibleAt d idx) := by
  unfold visibleAt
  exact inferInstance

/-- The accumulated XOR contribution of the phase-two loop, run over the
work list `w` starting at loop index `idx`, to framebuffer offset `a`. -/
def maskOf (d : Nat) : List Nat → Nat → Nat → Nat
  | [], _, _ => 0
  | b :: rest, idx, a =>
    (if visibleAt d idx ∧ a = drawAddrAt d idx then b else 0)
      ^^^ maskOf d rest (idx + 1) a

theorem drawAddrAt_inj {d i j : Nat} (h : drawAddrAt d i = drawAddrAt d j) : i = j := by
  unfold drawAddrAt at h
  omega

theorem shifted_sprite_length (l : List Nat) (off : Nat) :
    (shifted_sprite l off).length = 2 * l.length := by
  induction l with
  | nil => rfl
  | cons b rest ih =>
    simp only [shifted_sprite, List.length_cons, ih]
    omega

/-- The framebuffer component of the phase-two loop is a pointwise XOR
with the accumulated mask. -/
theorem drawRun_vram (d : Nat) (w : List Nat) :
    ∀ (idx : Nat) (v : Nat → Nat) (f t a : Nat),
      (drawRun d w idx v f t).1 a = v a ^^^ maskOf d w idx a := by
  induction w with
  | nil =>
    intro idx v f t a
    simp [drawRun, maskOf]
  | cons b rest ih =>
    intro idx v f t a
    simp only [drawRun, maskOf]
    by_cases h1 : 0x100 ≤ drawAddrAt d idx
    · rw [if_pos h1, if_neg (fun hc => absurd hc.1.1 (by omega)), ih, Nat.zero_xor]
    · rw [if_neg h1]
      by_cases h2 : idx % 2 = 1 ∧ drawAddrAt d idx &&& 0x3f = 0
      · rw [if_pos h2, if_neg (fun hc => hc.1.2 h2), ih, Nat.zero_xor]
      · rw [if_neg h2]
        have hvis : visibleAt d idx := ⟨by omega, h2⟩
        by_cases h3 : v (drawAddrAt d idx) &&& b ≠ 0
        · rw [if_pos h3, ih]
          by_cases ha : a = drawAddrAt d idx
          · rw [if_pos ha, if_pos ⟨hvis, ha⟩, ha, Nat.xor_assoc]
          · rw [if_neg ha, if_neg (fun hc => ha hc.2), Nat.zero_xor]
        · rw [if_neg h3, ih]
          by_cases ha : a = drawAddrAt d idx
          · rw [if_pos ha, if_pos ⟨hvis, ha⟩, ha, Nat.xor_assoc]
          · rw [if_neg ha, if_neg (fun hc => ha hc.2), Nat.zero_xor]

/-- The mask vanishes at any offset targeted by no loop index. -/
theorem maskOf_out (d : Nat) (w : List Nat) :
    ∀ (i a : Nat), (∀ j, i ≤ j → j < i + w.length → a ≠ drawAddrAt d j) →
      maskOf d w i a = 0 := by
  induction w with
  | nil => intro i a _; rfl
  | cons b rest ih =>
    intro i a h
    simp only [maskOf]
    rw [if_neg (fun hc => h i (Nat.le_refl i) (by simp only [List.length_cons]; omega) hc.2),
        ih (i + 1) a (fun j hj1 hj2 =>
          h j (by omega) (by simp only [List.length_cons] at hj2 ⊢; omega)),
        Nat.xor_zero]

/-- At the offset targeted by loop index `j`, the mask is exactly work
byte `j` when that byte is visible, and 0 otherwise (loop indices target
pairwise distinct offsets). -/
theorem maskOf_at (d : Nat) (w : List Nat) :
    ∀ (i j : Nat), i ≤ j → j < i + w.length →
      maskOf d w i (drawAddrAt d j)
        = if visibleAt d j then w.getD (j - i) 0 else 0 := by
  induction w with
  | nil =>
    intro i j h1 h2
    exfalso
    simp only [List.length_nil, Nat.add_zero] at h2
    omega
  | cons b rest ih =>
    intro i j h1 h2
    simp only [maskOf]
    by_cases hji : j = i
    · subst hji
      rw [maskOf_out d rest (j + 1) _
            (fun j2 hj1 hj2 hc => by have := drawAddrAt_inj hc; omega),
          Nat.xor_zero, Nat.sub_self]
      by_cases hv : visibleAt d j
      · rw [if_pos ⟨hv, rfl⟩, if_pos hv]
        rfl
      · rw [if_neg (fun hc => hv hc.1), if_neg hv]
    · have hij : i + 1 ≤ j := by omega
      rw [if_neg (fun hc => hji (drawAddrAt_inj hc.2)),
          ih (i + 1) j hij (by simp only [List.length_cons] at h2 ⊢; omega), Nat.zero_xor]
      have : j - i = (j - (i + 1)) + 1 := by omega
      rw [this, List.getD_cons_succ]

/-- The collision flag of the phase-two loop is 1 exactly when some
visible work byte overlaps a set framebuffer bit; because distinct loop
indices target distinct offsets, every collision test sees the
framebuffer as it was when the loop started. -/
theorem drawRun_flag (d : Nat) (w : List Nat) :
    ∀ (idx : Nat) (v : Nat → Nat) (f t : Nat),
      (drawRun d w idx v f t).2.1
        = if ∃ j, j < w.length ∧ (visibleAt d (idx + j)
              ∧ v (drawAddrAt d (idx + j)) &&& w.getD j 0 ≠ 0) then 1 else f := by
  induction w with
  | nil =>
    intro idx v f t
    rw [if_neg]
    · rfl
    · rintro ⟨j, hj, -⟩
      simp only [List.length_nil] at hj
      omega
  | cons b rest ih =>
    intro idx v f t
    simp only [drawRun]
    by_cases h1 : 0x100 ≤ drawAddrAt d idx
    · rw [if_pos h1, ih]
      refine if_congr ?_ rfl rfl
      constructor
      · rintro ⟨j, hj, hvis, hne⟩
        refine ⟨j + 1, by simp only [List.length_cons]; omega, ?_, ?_⟩
        · rw [show idx + (j + 1) = idx + 1 + j by omega]
          exact hvis
        · rw [show idx + (j + 1) = idx + 1 + j by omega, List.getD_cons_succ]
          exact hne
      · rintro ⟨j, hj, hvis, hne⟩
        match j with
        | 0 =>
          rw [Nat.add_zero] at hvis
          exact absurd hvis.1 (by omega)
        | j2 + 1 =>
          refine ⟨j2, by simp only [List.length_cons] at hj; omega, ?_, ?_⟩
          · rw [show idx + 1 + j2 = idx + (j2 + 1) by omega]
            exact hvis
          · rw [show idx + 1 + j2 = idx + (j2 + 1) by omega]
            rw [List.getD_cons_succ] at hne
            exact hne
    · rw [if_neg h1]
      by_cases h2 : idx % 2 = 1 ∧ drawAddrAt d idx &&& 0x3f = 0
      · rw [if_pos h2, ih]
        refine if_congr ?_ rfl rfl
        constructor
        · rintro ⟨j, hj, hvis, hne⟩
          refine ⟨j + 1, by simp only [List.length_cons]; omega, ?_, ?_⟩
          · rw [show idx + (j + 1) = idx + 1 + j by omega]
            exact hvis
          · rw [show idx + (j + 1) = idx + 1 + j by omega, List.getD_cons_succ]
            exact hne
        · rintro ⟨j, hj, hvis, hne⟩
          match j with
          | 0 =>
            rw [Nat.add_zero] at hvis
            exact absurd h2 hvis.2
          | j2 + 1 =>
            refine ⟨j2, by simp only [List.length_cons] at hj; omega, ?_, ?_⟩
            · rw [show idx + 1 + j2 = idx + (j2 + 1) by omega]
              exact hvis
            · rw [show idx + 1 + j2 = idx + (j2 + 1) by omega]
              rw [List.getD_cons_succ] at hne
              exact hne
      · rw [if_neg h2]
        have hvis : visibleAt d idx := ⟨by omega, h2⟩
        have hvv : ∀ j2 : Nat,
            (if drawAddrAt d (idx + 1 + j2) = drawAddrAt d idx
             then v (drawAddrAt d idx) ^^^ b else v (drawAddrAt d (idx + 1 + j2)))
            = v (drawAddrAt d (idx + 1 + j2)) :=
          fun j2 => if_neg (fun hc => by have := drawAddrAt_inj hc; omega)
        by_cases h3 : v (drawAddrAt d idx) &&& b ≠ 0
        · have hP : ∃ j, j < (b :: rest).length ∧ (visibleAt d (idx + j)
              ∧ v (drawAddrAt d (idx + j)) &&& (b :: rest).getD j 0 ≠ 0) := by
            refine ⟨0, by simp only [List.length_cons]; omega, ?_⟩
            rw [Nat.add_zero, List.getD_cons_zero]
            exact ⟨hvis, h3⟩
          rw [if_pos h3, ih, ite_self, if_pos hP]
        · rw [if_neg h3, ih]
          refine if_congr ?_ rfl rfl
          constructor
          · rintro ⟨j, hj, hvis2, hne⟩
            rw [hvv j] at hne
            refine ⟨j + 1, by simp only [List.length_cons]; omega, ?_, ?_⟩
            · rw [show idx + (j + 1) = idx + 1 + j by omega]
              exact hvis2
            · rw [show idx + (j + 1) = idx + 1 + j by omega, List.getD_cons_succ]
              exact hne
          · rintro ⟨j, hj, hvis2, hne⟩
            match j with
            | 0 =>
              rw [Nat.add_zero] at hvis2 hne
              rw [List.getD_cons_zero] at hne
              exact absurd hne h3
            | j2 + 1 =>
              refine ⟨j2, by simp only [List.length_cons] at hj; omega, ?_, ?_⟩
              · rw [show idx + 1 + j2 = idx + (j2 + 1) by omega]
                exact hvis2
              · rw [hvv j2, show idx + 1 + j2 = idx + (j2 + 1) by omega]
                rw [List.getD_cons_succ] at hne
                exact hne

/-- Writing a list and reading the same range back returns the list. -/
theorem writeBytes_range_map (m : Nat → Nat) (l : List Nat) (addr : Nat) :
    (List.range l.length).map (fun k => writeBytes m l addr (addr + k)) = l := by
  refine List.ext_getElem (by simp) ?_
  intro i h1 h2
  simp only [List.getElem_map, List.getElem_range]
  rw [writeBytes_in (by omega) (by omega), Nat.add_sub_cancel_left]
  rw [List.getD_eq_getElem l 0 h2]

/-- The sprite bytes fetched from memory at the index register. -/
def spriteList (u : Chip8Interpreter) (n : Nat) : List Nat :=
  (List.range n).map fun k => u.memory (u.i + k)

/-- The work-area image of the sprite: the shifted/carry byte pairs that
phase one deposits at `work_addr`. -/
def workImage (u : Chip8Interpreter) (x n : Nat) : List Nat :=
  shifted_sprite (spriteList u n) (u.memory (var_addr + x) &&& 0x7)

theorem workImage_length (u : Chip8Interpreter) (x n : Nat) :
    (workImage u x n).length = 2 * n := by
  unfold workImage spriteList
  rw [shifted_sprite_length]
  simp

/-- The framebuffer byte offset where phase two starts blitting:
`(0x3f & VX) / 8 + (0x1f & VY) * 8`. -/
def drawBase2 (u : Chip8Interpreter) (x y : Nat) : Nat :=
  (0x3f &&& u.memory (var_addr + x)) / 8 + (0x1f &&& u.memory (var_addr + y)) * 8

/-- Some visible work byte overlaps a set framebuffer bit: the condition
under which a single draw from state `u` reports a collision. -/
def drawCollides (u : Chip8Interpreter) (x y n : Nat) : Prop :=
  ∃ j, j < 2 * n ∧ (visibleAt (drawBase2 u x y) j
    ∧ u.memory (display_addr + drawAddrAt (drawBase2 u x y) j)
        &&& (workImage u x n).getD j 0 ≠ 0)

instance (u : Chip8Interpreter) (x y n : Nat) : Decidable (drawCollides u x y n) := by
  unfold drawCollides
  exact Nat.decidableExistsLT (2 * n)

/-- Some visible work byte lands on a pixel that was clear in the
original framebuffer (equivalently: the first of two identical draws
turned some pixel on).  This is the condition under which the second of
two identical draws reports a collision. -/
def doubleDrawCollides (u : Chip8Interpreter) (x y n : Nat) : Prop :=
  ∃ j, j < 2 * n ∧ (visibleAt (drawBase2 u x y) j
    ∧ (u.memory (display_addr + drawAddrAt (drawBase2 u x y) j)
        ^^^ (workImage u x n).getD j 0)
        &&& (workImage u x n).getD j 0 ≠ 0)

instance (u : Chip8Interpreter) (x y n : Nat) : Decidable (doubleDrawCollides u x y n) := by
  unfold doubleDrawCollides
  exact Nat.decidableExistsLT (2 * n)

/-- The state produced by phase one of the sprite draw. -/
def drawSprite1Result (u : Chip8Interpreter) : Chip8Interpreter :=
  { u with
      memory := writeBytes u.memory
        (shifted_sprite
          ((List.range (u.instruction_data &&& 0xf)).map fun k => u.memory (u.i + k))
          (u.memory (var_addr + u.vx) &&& 0x7))
        work_addr
      state := .WaitInterrupt
      instruction := some .draw_sprite_pt2 }

theorem draw_sprite_eq (u : Chip8Interpreter)
    (h1 : var_addr + u.vx + 1 ≤ CHIP8_RAM_SIZE_BYTES)
    (h2 : u.i + (u.instruction_data &&& 0xf) ≤ CHIP8_RAM_SIZE_BYTES) :
    inst_draw_sprite u
      = some (drawSprite1Result u,
              26 + 10 * (u.instruction_data &&& 0xf) * (u.memory (var_addr + u.vx) &&& 0x7)
                + 7 * (u.instruction_data &&& 0xf)) := by
  unfold inst_draw_sprite
  rw [get_ro_byte_eq h1]
  simp only [Option.bind_eq_bind, Option.some_bind]
  rw [get_ro_slice_eq h2]
  rfl

/-- The state (and duration) produced by phase two of the sprite draw. -/
def drawSprite2Result (u : Chip8Interpreter) : Chip8Interpreter × Nat :=
  ({ u with
      memory := fun a =>
        if a = var_addr + 0xf then
          (drawRun ((0x3f &&& u.memory (var_addr + u.vx)) / 8
              + (0x1f &&& u.memory (var_addr + u.vy)) * 8)
            ((List.range ((0xf &&& u.instruction_data) * 2)).map
              fun k => u.memory (work_addr + k)) 0
            (fun k => u.memory (display_addr + k)) 0 12).2.1
        else if display_addr ≤ a ∧ a < display_addr + 0x100 then
          (drawRun ((0x3f &&& u.memory (var_addr + u.vx)) / 8
              + (0x1f &&& u.memory (var_addr + u.vy)) * 8)
            ((List.range ((0xf &&& u.instruction_data) * 2)).map
              fun k => u.memory (work_addr + k)) 0
            (fun k => u.memory (display_addr + k)) 0 12).1 (a - display_addr)
        else u.memory a },
   (drawRun ((0x3f &&& u.memory (var_addr + u.vx)) / 8
       + (0x1f &&& u.memory (var_addr + u.vy)) * 8)
     ((List.range ((0xf &&& u.instruction_data) * 2)).map
       fun k => u.memory (work_addr + k)) 0
     (fun k => u.memory (display_addr + k)) 0 12).2.2)

theorem draw_sprite_pt2_eq (u : Chip8Interpreter)
    (h1 : var_addr + u.vx + 1 ≤ CHIP8_RAM_SIZE_BYTES)
    (h2 : var_addr + u.vy + 1 ≤ CHIP8_RAM_SIZE_BYTES)
    (h3 : work_addr + (0xf &&& u.instruction_data) * 2 ≤ CHIP8_RAM_SIZE_BYTES) :
    inst_draw_sprite_pt2 u = some (drawSprite2Result u) := by
  unfold inst_draw_sprite_pt2
  rw [get_ro_byte_eq h1]
  simp only [Option.bind_eq_bind, Option.some_bind]
  rw [get_ro_byte_eq h2]
  simp only [Option.some_bind]
  rw [get_ro_slice_eq h3]
  simp only [Option.some_bind]
  rw [write_one_eq (by simp only [var_addr_eq, ram_eq]; omega)]
  simp only [Option.some_bind]
  rfl

/-- The state produced by `interrupt`. -/
def interruptResult (u : Chip8Interpreter) : Chip8Interpreter :=
  { u with
      random := (u.random + 1) % 65536
      general_timer := if 0 < u.general_timer then u.general_timer - 1 else u.general_timer
      tone_timer := if 0 < u.tone_timer then u.tone_timer - 1 else u.tone_timer
      state := if u.state = InterpreterState.WaitInterrupt then InterpreterState.Execute
               else u.state }

theorem interrupt_eq (u : Chip8Interpreter)
    (h : u.display_pointer + 0x100 ≤ CHIP8_RAM_SIZE_BYTES) :
    interrupt u
      = some (interruptResult u,
          if 0 < u.tone_timer then
            (if 0 < u.general_timer then 807 + 1024 + 8 else 807 + 1024) + 4
          else (if 0 < u.general_timer then 807 + 1024 + 8 else 807 + 1024)) := by
  unfold interrupt
  rw [get_ro_slice_eq h]
  rfl

/-- Composition helper: `drawCycle` succeeds once each of its four steps
produces a state. -/
theorem drawCycle_comp (s s1 s2 s3 s4 : Chip8Interpreter)
    (h1 : (cycle s).map Prod.fst = some s1)
    (h2 : (cycle s1).map Prod.fst = some s2)
    (h3 : (interrupt s2).map Prod.fst = some s3)
    (h4 : (cycle s3).map Prod.fst = some s4) :
    drawCycle s = some s4 := by
  unfold drawCycle
  cases hc1 : cycle s with
  | none => rw [hc1] at h1; exact Option.noConfusion h1
  | some r1 =>
    rw [hc1] at h1
    simp only [Option.map_some', Option.some.injEq] at h1
    simp only [Option.bind_eq_bind, Option.some_bind, h1]
    cases hc2 : cycle s1 with
    | none => rw [hc2] at h2; exact Option.noConfusion h2
    | some r2 =>
      rw [hc2] at h2
      simp only [Option.map_some', Option.some.injEq] at h2
      simp only [Option.some_bind, h2]
      cases hc3 : interrupt s2 with
      | none => rw [hc3] at h3; exact Option.noConfusion h3
      | some r3 =>
        rw [hc3] at h3
        simp only [Option.map_some', Option.some.injEq] at h3
        simp only [Option.some_bind, h3]
        cases hc4 : cycle s3 with
        | none => rw [hc4] at h4; exact Option.noConfusion h4
        | some r4 =>
          rw [hc4] at h4
          simp only [Option.map_some', Option.some.injEq] at h4
          simp only [Option.some_bind, h4]

/-- State after fetching a dxyn opcode. -/
def draw1State (s : Chip8Interpreter) (x y n : Nat) : Chip8Interpreter :=
  { s with
      vx := x
      vy := y
      instruction := some .draw_sprite
      instruction_data := 0xd000 + 256 * x + 16 * y + n
      program_counter := s.program_counter + 2
      state := .Execute }

/-- State after phase one: the work area holds the shifted sprite image
and the machine waits for the display interrupt. -/
def draw2State (s : Chip8Interpreter) (x y n : Nat) : Chip8Interpreter :=
  { s with
      memory := writeBytes s.memory (workImage s x n) work_addr
      vx := x
      vy := y
      instruction := some .draw_sprite_pt2
      instruction_data := 0xd000 + 256 * x + 16 * y + n
      program_counter := s.program_counter + 2
      state := .WaitInterrupt }

/-- State after the interrupt between the two draw phases. -/
def draw3State (s : Chip8Interpreter) (x y n : Nat) : Chip8Interpreter :=
  { s with
      memory := writeBytes s.memory (workImage s x n) work_addr
      vx := x
      vy := y
      instruction := some .draw_sprite_pt2
      instruction_data := 0xd000 + 256 * x + 16 * y + n
      program_counter := s.program_counter + 2
      general_timer := if 0 < s.general_timer then s.general_timer - 1 else s.general_timer
      tone_timer := if 0 < s.tone_timer then s.tone_timer - 1 else s.tone_timer
      random := (s.random + 1) % 65536
      state := .Execute }

/-- The final state of one complete draw (fetch, phase one, interrupt,
phase two) of the dxyn opcode with operand nibbles x, y, n: VF holds the
collision flag, the framebuffer is XORed with the sprite mask, and the
work area holds the shifted sprite image. -/
def drawOnceResult (s : Chip8Interpreter) (x y n : Nat) : Chip8Interpreter :=
  { s with
      memory := fun a =>
        if a = var_addr + 0xf then (if drawCollides s x y n then 1 else 0)
        else if display_addr ≤ a ∧ a < display_addr + 0x100 then
          s.memory a ^^^ maskOf (drawBase2 s x y) (workImage s x n) 0 (a - display_addr)
        else writeBytes s.memory (workImage s x n) work_addr a
      vx := x
      vy := y
      instruction := some .draw_sprite_pt2
      instruction_data := 0xd000 + 256 * x + 16 * y + n
      program_counter := s.program_counter + 2
      general_timer := if 0 < s.general_timer then s.general_timer - 1 else s.general_timer
      tone_timer := if 0 < s.tone_timer then s.tone_timer - 1 else s.tone_timer
      random := (s.random + 1) % 65536
      state := .FetchDecode }

theorem drawSprite2Result_canonical (s : Chip8Interpreter) (x y n : Nat)
    (hx : x < 16) (hy : y < 16) (hn : n < 16) :
    (drawSprite2Result { draw3State s x y n with state := InterpreterState.FetchDecode }).1
      = drawOnceResult s x y n := by
  have hM2v : ∀ z, z < 16 →
      writeBytes s.memory (workImage s x n) work_addr (var_addr + z)
        = s.memory (var_addr + z) := by
    intro z hz
    apply writeBytes_out
    right
    rw [workImage_length]
    simp only [work_addr_eq, var_addr_eq]
    omega
  have hDD : (0x3f &&& writeBytes s.memory (workImage s x n) work_addr (var_addr + x)) / 8
      + (0x1f &&& writeBytes s.memory (workImage s x n) work_addr (var_addr + y)) * 8
      = drawBase2 s x y := by
    rw [hM2v x hx, hM2v y hy]
    rfl
  have hWW : (List.range ((0xf &&& (0xd000 + 256 * x + 16 * y + n)) * 2)).map
      (fun k => writeBytes s.memory (workImage s x n) work_addr (work_addr + k))
      = workImage s x n := by
    rw [show (0xf &&& (0xd000 + 256 * x + 16 * y + n)) * 2 = (workImage s x n).length by
      rw [mask_f_eq, workImage_length]; omega]
    exact writeBytes_range_map s.memory (workImage s x n) work_addr
  have hVV : (fun k => writeBytes s.memory (workImage s x n) work_addr (display_addr + k))
      = fun k => s.memory (display_addr + k) := by
    funext k
    apply writeBytes_out
    right
    rw [workImage_length]
    simp only [work_addr_eq, display_addr_eq]
    omega
  show ({ s with
      memory := fun a =>
        if a = var_addr + 0xf then
          (drawRun ((0x3f &&& writeBytes s.memory (workImage s x n) work_addr (var_addr + x)) / 8
              + (0x1f &&& writeBytes s.memory (workImage s x n) work_addr (var_addr + y)) * 8)
            ((List.range ((0xf &&& (0xd000 + 256 * x + 16 * y + n)) * 2)).map
              fun k => writeBytes s.memory (workImage s x n) work_addr (work_addr + k)) 0
            (fun k => writeBytes s.memory (workImage s x n) work_addr (display_addr + k))
            0 12).2.1
        else if display_addr ≤ a ∧ a < display_addr + 0x100 then
          (drawRun ((0x3f &&& writeBytes s.memory (workImage s x n) work_addr (var_addr + x)) / 8
              + (0x1f &&& writeBytes s.memory (workImage s x n) work_addr (var_addr + y)) * 8)
            ((List.range ((0xf &&& (0xd000 + 256 * x + 16 * y + n)) * 2)).map
              fun k => writeBytes s.memory (workImage s x n) work_addr (work_addr + k)) 0
            (fun k => writeBytes s.memory (workImage s x n) work_addr (display_addr + k))
            0 12).1 (a - display_addr)
        else writeBytes s.memory (workImage s x n) work_addr a
      vx := x
      vy := y
      instruction := some Inst.draw_sprite_pt2
      instruction_data := 0xd000 + 256 * x + 16 * y + n
      program_counter := s.program_counter + 2
      general_timer := if 0 < s.general_timer then s.general_timer - 1 else s.general_timer
      tone_timer := if 0 < s.tone_timer then s.tone_timer - 1 else s.tone_timer
      random := (s.random + 1) % 65536
      state := InterpreterState.FetchDecode } : Chip8Interpreter)
    = drawOnceResult s x y n
  rw [hDD, hWW, hVV]
  unfold drawOnceResult
  simp only [Chip8Interpreter.mk.injEq, and_true, true_and, and_self]
  funext a
  by_cases ha1 : a = var_addr + 0xf
  · rw [if_pos ha1, if_pos ha1, drawRun_flag]
    refine if_congr ?_ rfl rfl
    rw [workImage_length]
    simp only [Nat.zero_add]
    exact Iff.rfl
  · rw [if_neg ha1, if_neg ha1]
    by_cases ha2 : display_addr ≤ a ∧ a < display_addr + 0x100
    · rw [if_pos ha2, if_pos ha2, drawRun_vram]
      show s.memory (display_addr + (a - display_addr))
          ^^^ maskOf (drawBase2 s x y) (workImage s x n) 0 (a - display_addr) = _
      rw [Nat.add_sub_cancel' ha2.1]
    · rw [if_neg ha2, if_neg ha2]

theorem draw_step1 (s : Chip8Interpreter) (x y n : Nat)
    (hst : s.state = .FetchDecode) (hx : x < 16) (hy : y < 16) (hn : n < 16)
    (hw0 : s.memory s.program_counter = 0xd0 + x)
    (hw1 : s.memory (s.program_counter + 1) = 16 * y + n)
    (hp : s.program_counter + 2 ≤ CHIP8_RAM_SIZE_BYTES) :
    (cycle s).map Prod.fst = some (draw1State s x y n) := by
  rw [cycle_fetch _ hst, fetch_eq s (0xd000 + 256 * x + 16 * y + n) .draw_sprite
      (by rw [get_word_eq hp, hw0, hw1]; exact congrArg some (by omega))
      (decode_draw (by omega) (by omega))]
  simp only [Option.map_some']
  refine congrArg some ?_
  unfold fetchResult draw1State
  rw [draw_nibble_x x hx y hy n hn, draw_nibble_y x hx y hy n hn]

theorem draw_step2 (s : Chip8Interpreter) (x y n : Nat)
    (hx : x < 16) (hn : n < 16) (hi : s.i + n ≤ CHIP8_RAM_SIZE_BYTES) :
    (cycle (draw1State s x y n)).map Prod.fst = some (draw2State s x y n) := by
  rw [cycle_call _ rfl, call_some _ .draw_sprite rfl]
  show (inst_draw_sprite
      { draw1State s x y n with state := InterpreterState.FetchDecode }).map Prod.fst
    = some (draw2State s x y n)
  rw [draw_sprite_eq _
      (show var_addr + x + 1 ≤ CHIP8_RAM_SIZE_BYTES by
        simp only [var_addr_eq, ram_eq]; omega)
      (show s.i + ((0xd000 + 256 * x + 16 * y + n) &&& 0xf) ≤ CHIP8_RAM_SIZE_BYTES by
        rw [and_f_eq]; simp only [ram_eq] at hi ⊢; omega)]
  simp only [Option.map_some']
  refine congrArg some ?_
  show ({ s with
      memory := writeBytes s.memory
        (shifted_sprite
          ((List.range ((0xd000 + 256 * x + 16 * y + n) &&& 0xf)).map
            fun k => s.memory (s.i + k))
          (s.memory (var_addr + x) &&& 0x7))
        work_addr
      vx := x
      vy := y
      instruction := some Inst.draw_sprite_pt2
      instruction_data := 0xd000 + 256 * x + 16 * y + n
      program_counter := s.program_counter + 2
      state := InterpreterState.WaitInterrupt } : Chip8Interpreter)
    = draw2State s x y n
  rw [show (0xd000 + 256 * x + 16 * y + n) &&& 0xf = n by rw [and_f_eq]; omega]
  rfl

theorem draw_step3 (s : Chip8Interpreter) (x y n : Nat)
    (hdp : s.display_pointer + 0x100 ≤ CHIP8_RAM_SIZE_BYTES) :
    (interrupt (draw2State s x y n)).map Prod.fst = some (draw3State s x y n) := by
  rw [interrupt_eq (draw2State s x y n) hdp]
  rfl

theorem draw_step4 (s : Chip8Interpreter) (x y n : Nat)
    (hx : x < 16) (hy : y < 16) (hn : n < 16) :
    (cycle (draw3State s x y n)).map Prod.fst = some (drawOnceResult s x y n) := by
  rw [cycle_call _ rfl, call_some _ .draw_sprite_pt2 rfl]
  show (inst_draw_sprite_pt2
      { draw3State s x y n with state := InterpreterState.FetchDecode }).map Prod.fst
    = some (drawOnceResult s x y n)
  rw [draw_sprite_pt2_eq _
      (show var_addr + x + 1 ≤ CHIP8_RAM_SIZE_BYTES by
        simp only [var_addr_eq, ram_eq]; omega)
      (show var_addr + y + 1 ≤ CHIP8_RAM_SIZE_BYTES by
        simp only [var_addr_eq, ram_eq]; omega)
      (show work_addr + (0xf &&& (0xd000 + 256 * x + 16 * y + n)) * 2
          ≤ CHIP8_RAM_SIZE_BYTES by
        rw [mask_f_eq]; simp only [work_addr_eq, ram_eq]; omega)]
  simp only [Option.map_some']
  exact congrArg some (drawSprite2Result_canonical s x y n hx hy hn)

/-- One complete fetch + phase one + interrupt + phase two of a dxyn
opcode, characterized end to end. -/
theorem drawCycle_eq (s : Chip8Interpreter) (x y n : Nat)
    (hst : s.state = .FetchDecode) (hx : x < 16) (hy : y < 16) (hn : n < 16)
    (hw0 : s.memory s.program_counter = 0xd0 + x)
    (hw1 : s.memory (s.program_counter + 1) = 16 * y + n)
    (hp : s.program_counter + 2 ≤ work_addr)
    (hi : s.i + n ≤ work_addr)
    (hdp : s.display_pointer + 0x100 ≤ CHIP8_RAM_SIZE_BYTES) :
    drawCycle s = some (drawOnceResult s x y n) := by
  rw [work_addr_eq] at hp hi
  exact drawCycle_comp s _ _ _ _
    (draw_step1 s x y n hst hx hy hn hw0 hw1 (by simp only [ram_eq]; omega))
    (draw_step2 s x y n hx hn (by simp only [ram_eq]; omega))
    (draw_step3 s x y n hdp)
    (draw_step4 s x y n hx hy hn)

theorem drawOnceResult_mem_low (u : Chip8Interpreter) (x y n a : Nat)
    (ha : a < work_addr) : (drawOnceResult u x y n).memory a = u.memory a := by
  rw [work_addr_eq] at ha
  show (if a = var_addr + 0xf then (if drawCollides u x y n then 1 else 0)
        else if display_addr ≤ a ∧ a < display_addr + 0x100 then
          u.memory a ^^^ maskOf (drawBase2 u x y) (workImage u x n) 0 (a - display_addr)
        else writeBytes u.memory (workImage u x n) work_addr a) = u.memory a
  rw [if_neg (by simp only [var_addr_eq]; omega),
      if_neg (fun hc => by simp only [display_addr_eq] at hc; omega),
      writeBytes_out (Or.inl (by rw [work_addr_eq]; omega))]

theorem drawOnceResult_mem_var (u : Chip8Interpreter) (x y n z : Nat)
    (hn : n < 16) (hz : z < 16) (hz15 : z ≠ 15) :
    (drawOnceResult u x y n).memory (var_addr + z) = u.memory (var_addr + z) := by
  show (if var_addr + z = var_addr + 0xf then (if drawCollides u x y n then 1 else 0)
        else if display_addr ≤ var_addr + z ∧ var_addr + z < display_addr + 0x100 then
          u.memory (var_addr + z)
            ^^^ maskOf (drawBase2 u x y) (workImage u x n) 0 (var_addr + z - display_addr)
        else writeBytes u.memory (workImage u x n) work_addr (var_addr + z))
      = u.memory (var_addr + z)
  rw [if_neg (by simp only [var_addr_eq]; omega),
      if_neg (fun hc => by simp only [display_addr_eq, var_addr_eq] at hc; omega),
      writeBytes_out (Or.inr (by
        rw [workImage_length]; simp only [work_addr_eq, var_addr_eq]; omega))]

theorem drawOnceResult_mem_vf (u : Chip8Interpreter) (x y n : Nat) :
    (drawOnceResult u x y n).memory (var_addr + 0xf)
      = (if drawCollides u x y n then 1 else 0) := by
  show (if var_addr + 0xf = var_addr + 0xf then (if drawCollides u x y n then 1 else 0)
        else if display_addr ≤ var_addr + 0xf ∧ var_addr + 0xf < display_addr + 0x100 then
          u.memory (var_addr + 0xf)
            ^^^ maskOf (drawBase2 u x y) (workImage u x n) 0 (var_addr + 0xf - display_addr)
        else writeBytes u.memory (workImage u x n) work_addr (var_addr + 0xf))
      = (if drawCollides u x y n then 1 else 0)
  rw [if_pos rfl]

theorem drawOnceResult_mem_display (u : Chip8Interpreter) (x y n a : Nat)
    (ha : a < 0x100) :
    (drawOnceResult u x y n).memory (display_addr + a)
      = u.memory (display_addr + a)
          ^^^ maskOf (drawBase2 u x y) (workImage u x n) 0 a := by
  show (if display_addr + a = var_addr + 0xf then (if drawCollides u x y n then 1 else 0)
        else if display_addr ≤ display_addr + a ∧ display_addr + a < display_addr + 0x100 then
          u.memory (display_addr + a)
            ^^^ maskOf (drawBase2 u x y) (workImage u x n) 0 (display_addr + a - display_addr)
        else writeBytes u.memory (workImage u x n) work_addr (display_addr + a))
      = u.memory (display_addr + a)
          ^^^ maskOf (drawBase2 u x y) (workImage u x n) 0 a
  rw [if_neg (by simp only [display_addr_eq, var_addr_eq]; omega),
      if_pos ⟨Nat.le_add_right _ _, by omega⟩, Nat.add_sub_cancel_left]

theorem drawOnceResult_base (u : Chip8Interpreter) (x y n : Nat)
    (hn : n < 16) (hx : x < 16) (hy : y < 16) (hx15 : x ≠ 15) (hy15 : y ≠ 15) :
    drawBase2 (drawOnceResult u x y n) x y = drawBase2 u x y := by
  unfold drawBase2
  rw [drawOnceResult_mem_var u x y n x hn hx hx15,
      drawOnceResult_mem_var u x y n y hn hy hy15]

theorem drawOnceResult_workImage (u : Chip8Interpreter) (x y n : Nat)
    (hn : n < 16) (hx : x < 16) (hx15 : x ≠ 15) (hi : u.i + n ≤ work_addr) :
    workImage (drawOnceResult u x y n) x n = workImage u x n := by
  unfold workImage
  rw [drawOnceResult_mem_var u x y n x hn hx hx15]
  congr 1
  unfold spriteList
  refine List.map_congr_left ?_
  intro k hk
  rw [List.mem_range] at hk
  show (drawOnceResult u x y n).memory (u.i + k) = u.memory (u.i + k)
  exact drawOnceResult_mem_low u x y n (u.i + k) (by omega)

/-- C1 (amended): drawing the same sprite twice at the same location —
each draw a fetch of the dxyn opcode, its phase one, an interrupt, and
its phase two — restores the display region to its original contents.
The second draw leaves VF = 1 exactly when some visible work byte lands
on a pixel that was clear in the original framebuffer (equivalently:
the first draw turned some pixel on); in particular a sprite whose
visible bytes are all zero, or whose set pixels were all already set,
leaves VF = 0.  Hypotheses: the operand nibbles are x, y (not VF, since
the first draw writes VF) and n ∈ 1..15; the two dxyn words sit below
the work area at the program counter; the sprite at the index register
lies below the work area; the display pointer admits the framebuffer
read (all true in the reference configuration). -/
theorem claim_C1_double_draw_xor (s : Chip8Interpreter) (x y n : Nat)
    (hst : s.state = .FetchDecode)
    (hx : x < 16) (hy : y < 16) (hn1 : 1 ≤ n) (hn : n < 16)
    (hx15 : x ≠ 15) (hy15 : y ≠ 15)
    (hw0 : s.memory s.program_counter = 0xd0 + x)
    (hw1 : s.memory (s.program_counter + 1) = 16 * y + n)
    (hw2 : s.memory (s.program_counter + 2) = 0xd0 + x)
    (hw3 : s.memory (s.program_counter + 3) = 16 * y + n)
    (hp : s.program_counter + 4 ≤ work_addr)
    (hi : s.i + n ≤ work_addr)
    (hdp : s.display_pointer + 0x100 ≤ CHIP8_RAM_SIZE_BYTES) :
    ∃ t, doubleDraw s = some t
      ∧ (∀ a, a < 0x100 → t.memory (display_addr + a) = s.memory (display_addr + a))
      ∧ t.memory (var_addr + 0xf) = (if doubleDrawCollides s x y n then 1 else 0) := by
  have e1 : drawCycle s = some (drawOnceResult s x y n) :=
    drawCycle_eq s x y n hst hx hy hn hw0 hw1 (by omega) hi hdp
  have hw0t : (drawOnceResult s x y n).memory (drawOnceResult s x y n).program_counter
      = 0xd0 + x := by
    show (drawOnceResult s x y n).memory (s.program_counter + 2) = 0xd0 + x
    rw [drawOnceResult_mem_low s x y n _ (by omega), hw2]
  have hw1t : (drawOnceResult s x y n).memory ((drawOnceResult s x y n).program_counter + 1)
      = 16 * y + n := by
    show (drawOnceResult s x y n).memory (s.program_counter + 2 + 1) = 16 * y + n
    rw [show s.program_counter + 2 + 1 = s.program_counter + 3 by omega,
        drawOnceResult_mem_low s x y n _ (by omega), hw3]
  have e2 : drawCycle (drawOnceResult s x y n)
      = some (drawOnceResult (drawOnceResult s x y n) x y n) :=
    drawCycle_eq (drawOnceResult s x y n) x y n rfl hx hy hn hw0t hw1t
      (show s.program_counter + 2 + 2 ≤ work_addr by omega)
      (show s.i + n ≤ work_addr from hi)
      (show s.display_pointer + 0x100 ≤ CHIP8_RAM_SIZE_BYTES from hdp)
  refine ⟨drawOnceResult (drawOnceResult s x y n) x y n, ?_, ?_, ?_⟩
  · unfold doubleDraw
    rw [e1]
    simp only [Option.bind_eq_bind, Option.some_bind]
    exact e2
  · intro a ha
    rw [drawOnceResult_mem_display _ x y n a ha,
        drawOnceResult_mem_display s x y n a ha,
        drawOnceResult_base s x y n hn hx hy hx15 hy15,
        drawOnceResult_workImage s x y n hn hx hx15 hi,
        Nat.xor_assoc, Nat.xor_self, Nat.xor_zero]
  · rw [drawOnceResult_mem_vf]
    refine if_congr ?_ rfl rfl
    unfold drawCollides doubleDrawCollides
    rw [drawOnceResult_base s x y n hn hx hy hx15 hy15,
        drawOnceResult_workImage s x y n hn hx hx15 hi]
    constructor
    · rintro ⟨j, hj, hvis, hne⟩
      refine ⟨j, hj, hvis, ?_⟩
      rw [drawOnceResult_mem_display s x y n _ hvis.1,
          maskOf_at (drawBase2 s x y) (workImage s x n) 0 j (Nat.zero_le j)
            (by rw [workImage_length]; omega),
          if_pos hvis, Nat.sub_zero] at hne
      exact hne
    · rintro ⟨j, hj, hvis, hne⟩
      refine ⟨j, hj, hvis, ?_⟩
      rw [drawOnceResult_mem_display s x y n _ hvis.1,
          maskOf_at (drawBase2 s x y) (workImage s x n) 0 j (Nat.zero_le j)
            (by rw [workImage_length]; omega),
          if_pos hvis, Nat.sub_zero]
      exact hne

/-- Memory image for the C1 witness: opcode 0xd121 twice at 0x200, a
one-row sprite 0xff at 0x20a, registers V1 = V2 = 0, blank display. -/
def c1mem : Nat → Nat := fun a =>
  if a = 0x200 then 0xd1 else if a = 0x201 then 0x21
  else if a = 0x202 then 0xd1 else if a = 0x203 then 0x21
  else if a = 0x20a then 0xff else 0

/-- Concrete starting state for the C1 witness. -/
def c1state : Chip8Interpreter :=
  { memory := c1mem
    stack_pointer := stack_addr
    instruction := none
    instruction_data := 0
    program_counter := CHIP8_PROGRAM_ADDR
    vx := 0
    vy := 0
    tone_timer := 0
    general_timer := 0
    random := 0
    i := 0x20a
    display_pointer := display_addr
    state := .FetchDecode }

/-- Witness for C1 at a concrete double draw of a one-row 0xff sprite at
(0, 0) on a blank framebuffer. -/
theorem claim_C1_witness :
    ∃ t, doubleDraw c1state = some t
      ∧ (∀ a, a < 0x100 →
          t.memory (display_addr + a) = c1state.memory (display_addr + a))
      ∧ t.memory (var_addr + 0xf)
          = (if doubleDrawCollides c1state 1 2 1 then 1 else 0) :=
  claim_C1_double_draw_xor c1state 1 2 1 rfl (by decide) (by decide) (by decide)
    (by decide) (by decide) (by decide) (by decide) (by decide) (by decide)
    (by decide) (by decide) (by decide) (by decide)

/-- Memory image for the C1 counterexample: as the witness, but the
first framebuffer byte already has all eight pixels set. -/
def c1badmem : Nat → Nat := fun a =>
  if a = 0x200 then 0xd1 else if a = 0x201 then 0x21
  else if a = 0x202 then 0xd1 else if a = 0x203 then 0x21
  else if a = 0x20a then 0xff else if a = 0xf00 then 0xff else 0

/-- Concrete starting state for the C1 counterexample. -/
def c1badstate : Chip8Interpreter :=
  { memory := c1badmem
    stack_pointer := stack_addr
    instruction := none
    instruction_data := 0
    program_counter := CHIP8_PROGRAM_ADDR
    vx := 0
    vy := 0
    tone_timer := 0
    general_timer := 0
    random := 0
    i := 0x20a
    display_pointer := display_addr
    state := .FetchDecode }

/-- Counterexample to C1 as stated: drawing the 0xff sprite twice at
(0, 0) over a framebuffer byte that is already 0xff restores the display
(every sprite pixel was set, so the first draw only cleared pixels) and
the second draw reports VF = 0, not the claimed VF = 1. -/
theorem claim_C1_counterexample :
    (doubleDraw c1badstate).map (fun t => t.memory (var_addr + 0xf)) = some 0
    ∧ ¬ (doubleDraw c1badstate).map (fun t => t.memory (var_addr + 0xf)) = some 1 := by
  have h0 : (doubleDraw c1badstate).map (fun t => t.memory (var_addr + 0xf)) = some 0 := by
    decide
  refine ⟨h0, ?_⟩
  rw [h0]
  simp

end Chip8
